import Mathlib

/-!
Verification development for the bioimage.io resource-description
validation engine (spec-bioimage-io). The Lean definitions below are a
shallow embedding of the Python sources under src/: raw YAML/JSON data is
the inductive RawValue, Python dicts are ordered association structures,
Python exceptions are the PyExc sum, and functions that can raise return
Except PyExc. Python string helpers (split, join, rfind, slicing) are
re-implemented structurally so that every definition evaluates inside the
kernel. Definitions keep the source names where Lean allows it.
-/

/-- Python exceptions that the embedded code can raise. -/
inductive PyExc where
  | typeError (msg : String)
  | valueError (msg : String)
  | keyError (msg : String)
  | assertionError (msg : String)
  | runtimeError (msg : String)
  | notImplementedError (msg : String)
  | attributeError (msg : String)
  | validationErrorExc (msg : String)
deriving DecidableEq, Repr

mutual
/-- JSON-representable raw values: values of the raw mappings that the
engine validates (spec section 6: string keys, JSON-representable values). -/
inductive RawValue where
  | str (s : String)
  | int (n : Int)
  | bool (b : Bool)
  | null
  | dict (entries : RawEntries)
  | list (items : RawItems)
deriving DecidableEq
/-- Ordered entries of a Python dict with string keys (insertion order). -/
inductive RawEntries where
  | nil
  | cons (key : String) (value : RawValue) (rest : RawEntries)
deriving DecidableEq
/-- Ordered items of a Python list. -/
inductive RawItems where
  | nil
  | cons (value : RawValue) (rest : RawItems)
deriving DecidableEq
end

/-- Python `d.get(k)`: the value at the first (unique) matching key. -/
def dget : RawEntries → String → Option RawValue
  | .nil, _ => none
  | .cons k v rest, key => if k = key then some v else dget rest key

/-- Python `d[k] = v`: replace the value in place, or append a new entry. -/
def dset : RawEntries → String → RawValue → RawEntries
  | .nil, key, val => .cons key val .nil
  | .cons k v rest, key, val =>
    if k = key then .cons key val rest else .cons k v (dset rest key val)

/-- Python `del d[k]` (key unique in a Python dict; removes every match). -/
def derase : RawEntries → String → RawEntries
  | .nil, _ => .nil
  | .cons k v rest, key =>
    if k = key then derase rest key else .cons k v (derase rest key)

theorem dget_dset_self : ∀ (d : RawEntries) (k : String) (v : RawValue),
    dget (dset d k v) k = some v
  | .nil, k, v => by simp [dget, dset]
  | .cons k0 v0 rest, k, v => by
    by_cases h : k0 = k <;> simp [dget, dset, h, dget_dset_self rest k v]

theorem dget_dset_ne : ∀ (d : RawEntries) (k key : String) (v : RawValue),
    k ≠ key → dget (dset d key v) k = dget d k
  | .nil, k, key, v, h => by simp [dget, dset, Ne.symm h]
  | .cons k0 v0 rest, k, key, v, h => by
    by_cases h0 : k0 = key
    · subst h0
      simp [dget, dset, Ne.symm h]
    · simp only [dset, if_neg h0]
      by_cases h1 : k0 = k <;> simp [dget, h1, dget_dset_ne rest k key v h]

theorem dget_derase_self : ∀ (d : RawEntries) (k : String),
    dget (derase d k) k = none
  | .nil, k => by simp [dget, derase]
  | .cons k0 v0 rest, k => by
    by_cases h : k0 = k <;> simp [dget, derase, h, dget_derase_self rest k]

theorem dget_derase_ne : ∀ (d : RawEntries) (k key : String),
    k ≠ key → dget (derase d key) k = dget d k
  | .nil, k, key, h => by simp [dget, derase]
  | .cons k0 v0 rest, k, key, h => by
    by_cases h0 : k0 = key
    · subst h0
      simp [derase, dget, Ne.symm h, dget_derase_ne rest k k0 h]
    · simp only [derase, if_neg h0]
      by_cases h1 : k0 = k <;> simp [dget, h1, dget_derase_ne rest k key h]

theorem dset_of_dget_self : ∀ (d : RawEntries) (k : String) (v : RawValue),
    dget d k = some v → dset d k v = d
  | .nil, k, v, h => by simp [dget] at h
  | .cons k0 v0 rest, k, v, h => by
    by_cases h0 : k0 = k
    · subst h0
      simp [dget] at h
      simp [dset, h]
    · simp [dget, h0] at h
      simp [dset, h0, dset_of_dget_self rest k v h]

/-- Association-list lookup for ordinary Lean pair lists (Python dicts whose
keys or values are not raw data, e.g. the per-type schema tables and the
package content maps). -/
def alistGet {κ α : Type} [DecidableEq κ] : List (κ × α) → κ → Option α
  | [], _ => none
  | (k, v) :: rest, key => if k = key then some v else alistGet rest key

/-- Association-list update (in place, or appended), as `d[k] = v`. -/
def alistSet {κ α : Type} [DecidableEq κ] : List (κ × α) → κ → α → List (κ × α)
  | [], key, val => [(key, val)]
  | (k, v) :: rest, key, val =>
    if k = key then (key, val) :: rest else (k, v) :: alistSet rest key val

/-- Python `s.split(sep)` for a one-character separator. -/
def pySplitChar (sep : Char) (s : String) : List String :=
  (s.data.foldr
    (fun c acc =>
      match acc with
      | [] => [[c]]
      | cur :: rest => if c = sep then [] :: cur :: rest else (c :: cur) :: rest)
    [[]]).map (fun cs => ⟨cs⟩)

/-- Python `sep.join(parts)`. -/
def pyJoin (sep : String) : List String → String
  | [] => ""
  | [x] => x
  | x :: y :: rest => x ++ sep ++ pyJoin sep (y :: rest)

/-- Python `s.replace(old, new)` for one-character old and new. -/
def pyReplaceChar (old new : Char) (s : String) : String :=
  ⟨s.data.map (fun c => if c = old then new else c)⟩

/-- Index of the last occurrence of a character in a character list. -/
def lastIdxOf (c : Char) : List Char → Option Nat
  | [] => none
  | x :: rest =>
    match lastIdxOf c rest with
    | some j => some (j + 1)
    | none => if x = c then some 0 else none

/-- Python `s.rfind(c)`: index of the last occurrence, or -1. -/
def pyRFind (c : Char) (s : String) : Int :=
  match lastIdxOf c s.data with
  | some i => (i : Int)
  | none => -1

/-- Python slice `s[:i]`, including the negative-index convention. -/
def pySliceTo (s : String) (i : Int) : String :=
  if 0 ≤ i then ⟨s.data.take i.toNat⟩
  else ⟨s.data.take (s.data.length - (Int.toNat (-i)))⟩

/-- Number of occurrences of a character, as Python `s.count(c)`. -/
def countChar (c : Char) (s : String) : Nat := s.data.count c

/-- Python truthiness-based `m or alt` for an optional string parameter
(None and the empty string both fall through to `alt`). -/
def pyOr (m : Option String) (alt : String) : String :=
  match m with
  | some s => if s = "" then alt else s
  | none => alt

/-- Python `int(s)`: optional sign followed by decimal digits. -/
def pyInt (s : String) : Option Int :=
  match s.data with
  | [] => none
  | '-' :: rest =>
    if rest ≠ [] ∧ rest.all Char.isDigit then
      some (-(Int.ofNat (rest.foldl (fun a c => 10 * a + (c.toNat - 48)) 0)))
    else none
  | cs =>
    if cs.all Char.isDigit then
      some (Int.ofNat (cs.foldl (fun a c => 10 * a + (c.toNat - 48)) 0))
    else none

/-- Python `str()` of the name of a value's type, as in `f"{type(x)}"`. -/
def pyTypeName : RawValue → String
  | .str _ => "str"
  | .int _ => "int"
  | .bool _ => "bool"
  | .null => "NoneType"
  | .dict _ => "dict"
  | .list _ => "list"

/-- Python `str()` of a raw value (container reprs abbreviated; only the
scalar cases are exercised by the theorems below). -/
def pyStr : RawValue → String
  | .str s => s
  | .int n => toString n
  | .bool b => if b then "True" else "False"
  | .null => "None"
  | .dict _ => "\x7b...\x7d"
  | .list _ => "[...]"

/-- The `str()` and type name of `d.get(k)`, whose result may be None. -/
def pyStrOpt : Option RawValue → String
  | none => "None"
  | some v => pyStr v

/-- Formatted `f"{type(x)}"` for a possibly-missing value. -/
def pyTypeOpt : Option RawValue → String
  | none => "<class 'NoneType'>"
  | some v => s!"<class '{pyTypeName v}'>"

/-!
Embedding of src/bioimageio/spec/shared/validation.py: severities, the
validation context, warning and error records, and validation summaries.
-/

/-- Severity of a warning condition, the Literal[20, 30, 35] type
`Severity` of shared/validation.py (INFO = 20, WARNING = 30, ALERT = 35). -/
inductive Severity where
  | info
  | warning
  | alert
deriving DecidableEq, Repr

/-- The numeric value of a severity (INFO = 20, WARNING = 30, ALERT = 35). -/
def Severity.toNat : Severity → Nat
  | .info => 20
  | .warning => 30
  | .alert => 35

/-- SEVERITY_TO_WARNING of shared/validation.py: the warning type name of a
severity. -/
def Severity.warningName : Severity → String
  | .info => "info"
  | .warning => "warning"
  | .alert => "alert"

/-- Modelled from the spec: the ERROR constant of the absent module
_internal/_constants.py, the default warning level; utils.py line 193 calls
warning level 50 "('ERROR'/'CRITICAL')" and WarningLevel of
shared/validation.py includes 50. -/
def ERROR_LEVEL : Nat := 50

/-- Membership test against get_args(WarningType): WarningType of
shared/validation.py is Literal["info", "warning", "alert"]. -/
def isWarningType (t : String) : Bool :=
  t = "info" ∨ t = "warning" ∨ t = "alert"

/-- A component of an error location: a field name or a sequence index. -/
inductive LocKey where
  | str (s : String)
  | idx (n : Nat)
deriving DecidableEq, Repr

/-- An error or warning record: the shape shared by ValidationError and
ValidationWarning of shared/validation.py (loc, msg, type). -/
structure ErrRecord where
  loc : List LocKey
  msg : String
  typ : String
deriving DecidableEq, Repr

/-- The root of a validation context: a local directory path or a URL
(`root: Union[DirectoryPath, AnyUrl]`). -/
inductive PathOrUrl where
  | localPath (p : String)
  | url (u : String)
deriving DecidableEq, Repr

/-- ValidationContext of shared/validation.py (defaults: root = Path(),
warning_level = 50, original_format = None, collection_base_content = None). -/
structure ValidationContext where
  root : PathOrUrl := .localPath "."
  warning_level : Nat := 50
  original_format : Option (Nat × Nat × Nat) := none
  collection_base_content : Option RawEntries := none
deriving DecidableEq

/-- Python `(context.root / "rdf.yaml").as_posix()` for a local path root. -/
def pathJoinRdf (p : String) : String :=
  if p = "." ∨ p = "" then "rdf.yaml"
  else if p.data.getLast? = some '/' then p ++ "rdf.yaml"
  else p ++ "/rdf.yaml"

/-- Modelled from the spec: the stdlib `urljoin(str(root), "rdf.yaml")` used
by utils.py for URL roots; the relative name replaces the last path
segment of the base. -/
def urljoinRdf (u : String) : String :=
  match lastIdxOf '/' u.data with
  | some i => (⟨u.data.take (i + 1)⟩ : String) ++ "rdf.yaml"
  | none => "rdf.yaml"

/-- The source_name computed by load_description_with_known_rd_class
(utils.py lines 211-213). -/
def sourceNameOf : PathOrUrl → String
  | .localPath p => pathJoinRdf p
  | .url u => urljoinRdf u

/-- Modelled from the spec: the bioimageio.spec __version__ string, which the
package reads from its VERSION data file (absent from src/). It is carried
opaquely through every summary. -/
def SPEC_VERSION : String := "0.5.0"

/-- ValidationSummary of shared/validation.py. The traceback and warnings
fields model the optional TypedDict keys: they are present (some) only when
the loader sets them. -/
structure ValidationSummary where
  bioimageio_spec_version : String
  name : String
  source_name : String
  status : String
  errors : List ErrRecord
  traceback : Option (List String) := none
  warnings : Option (List ErrRecord) := none
deriving DecidableEq

/-!
The ambient validation context (shared/validation.py lines 41-49): a
ContextVar holds the current ValidationContext; `__enter__` sets the var to
self and keeps the returned token, `__exit__` resets the var through the
token. The token records the previous value, as CPython's Token does. A
body is any computation that reads the ambient state and either returns a
value or raises.
-/

/-- A ContextVar token: the value the variable held before the `set` call. -/
structure CtxToken where
  oldValue : ValidationContext
deriving DecidableEq

/-- `validation_context_var.set(self)` inside `ValidationContext.__enter__`:
the new state and the token for the previous one. -/
def contextVarSet (state newValue : ValidationContext) :
    ValidationContext × CtxToken :=
  (newValue, ⟨state⟩)

/-- `validation_context_var.reset(self._token)` inside `__exit__`. -/
def contextVarReset (_state : ValidationContext) (token : CtxToken) :
    ValidationContext :=
  token.oldValue

/-- Python `with cfg: body` over ValidationContext: `__enter__` sets the
ambient variable, the body runs against the new state (returning a value or
an exception), and `__exit__` resets the variable on both exit paths. -/
def withValidationContext {α : Type} (cfg : ValidationContext)
    (body : ValidationContext → ValidationContext × Except PyExc α)
    (state : ValidationContext) : ValidationContext × Except PyExc α :=
  let (entered, token) := contextVarSet state cfg
  let (after, result) := body entered
  (contextVarReset after token, result)

/-- The context a node constructor observes
(ResourceDescriptionBase._get_context_and_update_data, shared/nodes.py
lines 188-193): the explicit argument if given, else the ambient variable. -/
def nodeObservedContext (explicit : Option ValidationContext)
    (ambient : ValidationContext) : ValidationContext :=
  match explicit with
  | none => ambient
  | some c => c

/-!
Embedding of src/bioimageio/spec/_internal/_warn.py: the as_warning wrapper
(lines 73-92). The wrapped check either passes or fails with the joined
exception arguments; the wrapper consults the context's warning level
(default ERROR = 50) and either swallows the failure or raises a
PydanticCustomError whose type is the severity's warning name. In both
non-raising cases the original (uninspected) value is returned.
-/

/-- as_warning of _internal/_warn.py: the wrapper's behaviour on one value.
`check` is the outcome of `call_validator_func` (ok, or the AssertionError /
ValueError argument string); `ctxLevel` is
`(info.context or {}).get(WARNING_LEVEL_CONTEXT_KEY, ERROR)`. The error
carries (PydanticCustomError type, message template). -/
def as_warning {α : Type} (severity : Severity) (msg : Option String)
    (ctxLevel : Option Nat) (check : Except String Unit) (value : α) :
    Except (String × String) α :=
  match check with
  | .ok _ => .ok value
  | .error eArgs =>
    if severity.toNat ≥ ctxLevel.getD ERROR_LEVEL then
      .error (severity.warningName, pyOr msg eArgs)
    else .ok value

/-!
Embedding of the loading pipeline of src/bioimageio/spec/utils.py. The
pydantic machinery behind `rd_class.model_validate` is an external
collaborator (the per-field schema declarations are out of the engine's
scope); it is modelled as a function from a validation context to one of
the three outcomes `_load_descr_impl` distinguishes: a validated resource
description, a pydantic.ValidationError carrying error records, or any
other exception (caught with its traceback).
-/

/-- A validated resource description as far as the loader observes it:
`rd.type`, `rd.format_version` (utils.py lines 198-199) and an opaque
payload standing for the remaining validated fields. -/
structure RDVal where
  type : String
  format_version : String
  payload : Nat
deriving DecidableEq, Repr

/-- Outcome of `rd_class.model_validate(resource_description, context=...)`
as distinguished by `_load_descr_impl` (utils.py lines 167-178). -/
inductive ValidateResult where
  | ok (rd : RDVal)
  | validationError (errs : List ErrRecord)
  | otherExc (name msg : String) (tb : List String)
deriving DecidableEq

/-- _load_descr_impl (utils.py lines 162-180): run the validator and sort a
pydantic.ValidationError's records into warnings (types listed in
WarningType) and errors; any other exception becomes a single
location-less error plus a traceback. Returns
(rd, val_errors, tb, val_warnings). -/
def _load_descr_impl (validate : ValidationContext → ValidateResult)
    (context : ValidationContext) :
    Option RDVal × List ErrRecord × Option (List String) × List ErrRecord :=
  match validate context with
  | .ok rd => (some rd, [], none, [])
  | .validationError errs =>
    (none, errs.filter (fun e => ¬ isWarningType e.typ),
     none, errs.filter (fun e => isWarningType e.typ))
  | .otherExc name msg tb => (none, [⟨[], msg, name⟩], some tb, [])

/-- The context of the first loading attempt (utils.py lines 192-193):
every field of the caller's context with warning_level replaced by 50, so
that no warning-severity check can fire ("ignore any warnings ... on first
loading attempt"). -/
def strictPassContext (context : ValidationContext) : ValidationContext :=
  { context with warning_level := 50 }

/-- Python `x is None` evaluated on a value that is always a list:
`_load_descr_impl` initialises `val_errors: List[ValidationError] = []`
and returns that list, so the identity test of utils.py line 200 is False
on every path through the success branch. -/
def pyListIsNone (_errors : List ErrRecord) : Bool := false

/-- Python `assert cond, msg`: AssertionError(msg) when the condition does
not hold. -/
def pyAssert (cond : Bool) (msg : String) : Except PyExc Unit :=
  if cond then .ok () else .error (.assertionError msg)

/-- The ValidationSummary assembled at utils.py lines 207-220: status
"failed" exactly when the error list is non-empty; the traceback and
warnings keys are set only when a traceback or a warning exists. -/
def summaryOf (resourceType formatVersion : String) (errors : List ErrRecord)
    (tb : Option (List String)) (valWarnings : List ErrRecord)
    (context : ValidationContext) : ValidationSummary :=
  let summary : ValidationSummary :=
    { bioimageio_spec_version := SPEC_VERSION
      errors := errors
      name :=
        s!"bioimageio.spec static {resourceType} validation (format version: {formatVersion})."
      source_name := sourceNameOf context.root
      status := if errors.isEmpty then "passed" else "failed" }
  let summary := match tb with
    | some t => { summary with traceback := some t }
    | none => summary
  if valWarnings.isEmpty then summary
  else { summary with warnings := some valWarnings }

/-- load_description_with_known_rd_class (utils.py lines 183-222).
The first loading attempt runs at warning level 50 ("ignore any
warnings ... on first loading attempt"). If it yields a resource
description, line 200 asserts `errors is None` on the returned error
list; `_load_descr_impl` always returns a list (possibly empty), never
None, so this assertion fails on every success path and
AssertionError("got rd, but also an error") propagates — the second
loading attempt at the caller's warning level (line 203) and the summary
for the success case are dead code, kept here as the source has them.
On a failed first attempt the summary is assembled from the first
attempt's records under the rd class's declared type and format version. -/
def load_description_with_known_rd_class
    (validate : ValidationContext → ValidateResult)
    (rdClassType rdClassFormatVersion : String)
    (context : ValidationContext) :
    Except PyExc (Option RDVal × ValidationSummary) :=
  match _load_descr_impl validate (strictPassContext context) with
  | (some rd, errors, tb, valWarnings) => do
    let _ ← pyAssert (pyListIsNone errors) "got rd, but also an error"
    let _ ← pyAssert tb.isNone "got rd, but also an error traceback"
    let _ ← pyAssert valWarnings.isEmpty "got rd, but also already warnings"
    match _load_descr_impl validate context with
    | (_, error2, tb2, valWarnings2) => do
      let _ ← pyAssert (pyListIsNone error2) "increasing warning level caused errors"
      let _ ← pyAssert tb2.isNone "increasing warning level lead to error traceback"
      .ok (some rd, summaryOf rd.type rd.format_version errors tb valWarnings2 context)
  | (none, errors, tb, valWarnings) =>
    .ok (none, summaryOf rdClassType rdClassFormatVersion errors tb valWarnings context)

/-!
A resource-description class built from constraint checks, the shape the
warning/error partition claims quantify over: each field check either is a
plain pydantic constraint (a failure yields an error record of some
non-warning type) or is wrapped by as_warning with a severity (a failure
raises the severity's warning-typed record when the severity reaches the
context's warning level, and is silently swallowed otherwise, exactly the
as_warning wrapper above). pydantic collects every failing field before
reporting, so the outcome on one input is the record list of all fired
checks in declaration order.
-/

/-- One constraint check evaluated on a fixed input: its report location
and message, its pydantic error type (for plain checks), the as_warning
severity (none for plain checks), and whether the check passes on the
input. -/
structure CheckModel where
  loc : List LocKey
  msg : String
  errType : String
  warnSeverity : Option Severity
  ok : Bool
deriving DecidableEq

/-- The record a check contributes at a given warning level: nothing when
it passes; its error record when it is plain; its severity-named record
when it is warn-wrapped and the severity reaches the level (the as_warning
raise path), and nothing otherwise (the as_warning swallow path). -/
def recordOf (level : Nat) (c : CheckModel) : Option ErrRecord :=
  if c.ok then none
  else
    match c.warnSeverity with
    | none => some ⟨c.loc, c.msg, c.errType⟩
    | some severity =>
      match as_warning severity (some c.msg) (some level) (.error c.msg) () with
      | .ok _ => none
      | .error (typ, msg) => some ⟨c.loc, msg, typ⟩

/-- `model_validate` of a class whose constraints are the given checks:
collect every fired record; succeed with the validated value only when
none fired. -/
def checksValidate (checks : List CheckModel) (rd : RDVal)
    (context : ValidationContext) : ValidateResult :=
  let errs := checks.filterMap (recordOf context.warning_level)
  if errs.isEmpty then .ok rd else .validationError errs

/-!
Embedding of the format-version resolution of src/bioimageio/spec/utils.py
(get_supported_format_versions, check_type_and_format_version,
get_rd_class, load_description, validate). The registry of concrete
resource-description classes lives in per-type modules that are not under
src/, so it is a parameter: each class carries the class-level attributes
the resolver reads, and the package's type submodules are an association
of module names to their classes.
-/

/-- Modelled from the spec: the class-level attributes of a concrete
resource-description class that utils.py reads. The class modules
(bioimageio/spec/generic, model, ... submodules) are absent from src/;
`type` is `model_fields["type"].default` with PydanticUndefined already
resolved to "generic", `implemented_format_version` and its tuple are the
class attributes of the same names, and classId distinguishes classes. -/
structure RdClassM where
  type : String
  implemented_format_version : String
  implemented_format_version_tuple : Nat × Nat × Nat
  classId : Nat
deriving DecidableEq, Repr

/-- Modelled from the spec: a specialized type module of bioimageio.spec,
with its latest resource-description class (`getattr(type_module,
typ.capitalize())`) and its version submodules keyed by name ("v0_4" ...),
each collapsed to that submodule's class. -/
structure TypeModuleM where
  latestClass : RdClassM
  versioned : List (String × RdClassM)
deriving DecidableEq

/-- The registry and external collaborators of the loader: the classes
`_iterate_over_rd_classes` yields in order, the specialized type modules of
the bioimageio.spec package, the latest generic class
(bioimageio.spec.generic.Generic), and the pydantic validation of one
class on one raw mapping (an external collaborator, see above). -/
structure SpecLib where
  rdClasses : List RdClassM
  typeModules : List (String × TypeModuleM)
  genericLatest : RdClassM
  modelValidate : RdClassM → RawEntries → ValidationContext → ValidateResult

/-- get_supported_format_versions (utils.py lines 54-64): every patch of
every implemented version per type, plus the convertible model 0.3.0-0.3.6
range (a KeyError if no model class is registered). -/
def get_supported_format_versions (lib : SpecLib) :
    Except PyExc (List (String × List String)) :=
  let supported := lib.rdClasses.foldl
    (fun supported c =>
      let (ma, mi, pa) := c.implemented_format_version_tuple
      let cur := (alistGet supported c.type).getD []
      alistSet supported c.type
        (cur ++ (List.range (pa + 1)).map (fun p => s!"{ma}.{mi}.{p}")))
    []
  match alistGet supported "model" with
  | none => .error (.keyError "model")
  | some cur =>
    .ok (alistSet supported "model"
      (cur ++ (List.range 7).map (fun i => s!"0.3.{i}")))

/-- check_type_and_format_version (utils.py lines 80-109): reject a
missing or non-string type or format_version with a TypeError; keep a
supported format version; otherwise, for a specialized type, round to the
implemented version of the matching MAJOR_MINOR submodule (future patch)
or of the type's latest class; otherwise fall back to the latest generic
version. Returns (type, declared version, version to use). -/
def check_type_and_format_version (lib : SpecLib) (data : RawEntries) :
    Except PyExc (String × String × String) := do
  let typ ← match dget data "type" with
    | some (.str s) => Except.ok s
    | other =>
      Except.error (.typeError
        s!"Invalid resource type '{pyStrOpt other}' of type {pyTypeOpt other}")
  let fv ← match dget data "format_version" with
    | some (.str s) => Except.ok s
    | other =>
      Except.error (.typeError
        s!"Invalid format version '{pyStrOpt other}' of type {pyTypeOpt other}")
  let supported ← get_supported_format_versions lib
  if fv ∈ (alistGet supported typ).getD [] then
    Except.ok (typ, fv, fv)
  else
    match alistGet lib.typeModules typ with
    | some typeModule =>
      let vModuleClass :=
        if countChar '.' fv = 2 then
          let vModuleName :=
            "v" ++ pyReplaceChar '.' '_' (pySliceTo fv (pyRFind '.' fv))
          alistGet typeModule.versioned vModuleName
        else none
      let rdClass := match vModuleClass with
        | some cls => cls
        | none => typeModule.latestClass
      Except.ok (typ, fv, rdClass.implemented_format_version)
    | none =>
      Except.ok (typ, fv, lib.genericLatest.implemented_format_version)

/-- The version normalization at the head of get_rd_class (utils.py lines
114-117): "N" becomes "N.0", "MAJOR.MINOR.PATCH" is cut at the last dot,
everything else (including "latest") is kept. -/
def normalize_format_version (format_version : String) : String :=
  if format_version ≠ "latest" ∧ countChar '.' format_version = 0 then
    format_version ++ ".0"
  else if countChar '.' format_version = 2 then
    pySliceTo format_version (pyRFind '.' format_version)
  else format_version

/-- The per-type MAJOR.MINOR table built inside get_rd_class (utils.py
lines 119-131), keyed by type and by `f"{ma}.{mi}"`; the source asserts
that no (type, MAJOR.MINOR) pair repeats. -/
def buildRdClassTable (classes : List RdClassM) :
    Except PyExc (List (String × List (String × RdClassM))) :=
  classes.foldlM
    (fun table c => do
      let perFv := (alistGet table c.type).getD []
      let key :=
        s!"{c.implemented_format_version_tuple.1}.{c.implemented_format_version_tuple.2.1}"
      let _ ← pyAssert (alistGet perFv key).isNone "key not in per_fv"
      Except.ok (alistSet table c.type (perFv ++ [(key, c)])))
    []

/-- get_rd_class (utils.py lines 112-137): normalize the version, build the
table, look the type up (falling back to the generic table), then the
MAJOR.MINOR key; a missing key is a NotImplementedError naming type and
version. -/
def get_rd_class (lib : SpecLib) (type_ : String) (format_version : String) :
    Except PyExc RdClassM := do
  let fv := normalize_format_version format_version
  let table ← buildRdClassTable lib.rdClasses
  let perFv ← match alistGet table type_ with
    | some m => Except.ok m
    | none =>
      match alistGet table "generic" with
      | some m => Except.ok m
      | none => Except.error (.keyError "generic")
  match alistGet perFv fv with
  | some c => Except.ok c
  | none =>
    Except.error (.notImplementedError
      s!"{type_} (or generic) specification {fv} does not exist.")

/-- load_description (utils.py lines 225-253): resolve type and version;
when the version to use differs from the declared one, rewrite the copied
data's format_version and create the synthetic future-patch alert warning;
pick the rd class (for the "discover" argument, the version to use); run
load_description_with_known_rd_class; and prepend the synthetic warning,
creating the warnings key if needed. -/
def load_description (lib : SpecLib) (data : RawEntries)
    (context : ValidationContext) (format_version : String) :
    Except PyExc (Option RDVal × ValidationSummary) := do
  let (discoveredType, discoveredFormatVersion, useFormatVersion) ←
    check_type_and_format_version lib data
  let (data, futurePatchWarning) :=
    if useFormatVersion ≠ discoveredFormatVersion then
      (dset data "format_version" (.str useFormatVersion),
       some (⟨[.str "format_version"],
         s!"Treated future patch version {discoveredFormatVersion} as {useFormatVersion}.",
         "alert"⟩ : ErrRecord))
    else (data, none)
  let fv := if format_version = "discover" then useFormatVersion else format_version
  let rdClass ← get_rd_class lib discoveredType fv
  let (rd, summary) ← load_description_with_known_rd_class
    (lib.modelValidate rdClass data) rdClass.type
    rdClass.implemented_format_version context
  match futurePatchWarning with
  | some w =>
    .ok (rd, { summary with warnings := some (w :: summary.warnings.getD []) })
  | none => .ok (rd, summary)

/-- validate (utils.py lines 256-262): load and keep only the summary. -/
def validate (lib : SpecLib) (data : RawEntries)
    (context : ValidationContext) (as_format : String) :
    Except PyExc ValidationSummary :=
  match load_description lib data context as_format with
  | .ok (_rd, summary) => .ok summary
  | .error e => .error e

/-!
Embedding of the format-version delegation of
src/bioimageio/spec/shared/io.py (IO_Base, lines 421-438 and 489-498): an
IO class knows its own newest format version and at most one preceding IO
class, and routes a data version numerically.
-/

/-- An IO class of the legacy io module: its current format version string
(`get_args(cls.raw_nodes.ModelFormatVersion)[-1]`) and its optional
preceding IO class. -/
inductive IOClassM where
  | mk (currentFormatVersion : String) (precedingIoClass : Option IOClassM)

/-- The newest format version string the IO class implements. -/
def IOClassM.currentFormatVersion : IOClassM → String
  | .mk v _ => v

/-- The preceding IO class, if any. -/
def IOClassM.precedingIoClass : IOClassM → Option IOClassM
  | .mk _ p => p

/-- get_version_tuple_wo_patch (io.py lines 489-494): the first two
dot-separated components as integers; any failure (missing component,
non-integer) is wrapped into a marshmallow ValidationError (the wrapped
exception text is abbreviated here). -/
def get_version_tuple_wo_patch (version : String) : Except PyExc (Int × Int) :=
  let fvs := pySplitChar '.' version
  match fvs.get? 0, fvs.get? 1 with
  | some a, some b =>
    match pyInt a, pyInt b with
    | some x, some y => .ok (x, y)
    | _, _ => .error (.validationErrorExc s!"invalid format_version '{version}' error")
  | _, _ => .error (.validationErrorExc s!"invalid format_version '{version}' error")

/-- Python comparison of two (int, int) tuples with `>`. -/
def pyTupleGt (a b : Int × Int) : Bool :=
  a.1 > b.1 ∨ (a.1 = b.1 ∧ a.2 > b.2)

/-- Python `".".join(map(str, t))` for an (int, int) tuple. -/
def joinVersionTuple (t : Int × Int) : String := s!"{t.1}.{t.2}"

/-- get_matching_io_class (io.py lines 421-438): reject a data version
whose (MAJOR, MINOR) exceeds the class's own; answer with the class itself
on an exact match, and with the preceding class otherwise (or a
NotImplementedError when there is none). -/
def get_matching_io_class (cls : IOClassM) (data_version : String)
    (action_descr : String) : Except PyExc IOClassM := do
  let dataVersionWoPatch ← get_version_tuple_wo_patch data_version
  let currentVersionWoPatch ← get_version_tuple_wo_patch cls.currentFormatVersion
  if pyTupleGt dataVersionWoPatch currentVersionWoPatch then
    .error (.valueError
      s!"You are attempting to {action_descr} an RDF in format version {joinVersionTuple dataVersionWoPatch}.x with the RDF spec {joinVersionTuple currentVersionWoPatch}")
  else if dataVersionWoPatch = currentVersionWoPatch then
    .ok cls
  else
    match cls.precedingIoClass with
    | none =>
      .error (.notImplementedError
        s!"format version {joinVersionTuple dataVersionWoPatch}")
    | some p => .ok p

/-!
Embedding of maybe_convert of src/bioimageio/spec/model/v0_4/converters.py
(lines 28-43): parse the declared format version, convert from the 0.3
line when below the 0.4 floor (the conversion itself,
convert_model_from_v0_3, chains into modules absent from src/ and is a
parameter), then prune an empty `future` entry from `config` and an
emptied `config` from the document.
-/

/-- The parse at converters.py line 30:
`major, minor, patch = map(int, data.get("format_version", "0.1.0").split("."))`,
with the Python failure modes (non-string: AttributeError on `.split`;
non-integer component: ValueError; component count other than three:
unpacking ValueError). -/
def parseFormatVersionTriple (fvVal : RawValue) : Except PyExc (Int × Int × Int) := do
  let fvStr ← match fvVal with
    | .str s => Except.ok s
    | v =>
      Except.error (.attributeError
        s!"'{pyTypeName v}' object has no attribute 'split'")
  let nums ← (pySplitChar '.' fvStr).mapM (fun p =>
    match pyInt p with
    | some n => Except.ok n
    | none =>
      Except.error (.valueError
        s!"invalid literal for int() with base 10: '{p}'"))
  match nums with
  | [ma, mi, pa] => Except.ok (ma, mi, pa)
  | _ => Except.error (.valueError "unpack")

/-- The declared version triple of a raw document, defaulting to "0.1.0". -/
def maybe_convert_parse (data : RawEntries) : Except PyExc (Int × Int × Int) :=
  parseFormatVersionTriple ((dget data "format_version").getD (.str "0.1.0"))

/-- Lines 34-37 of converters.py: remove `future` from the config dict
when it equals the empty dict. -/
def configPruneFuture (cfg : RawEntries) : RawEntries :=
  if dget cfg "future" = some (.dict .nil) then derase cfg "future" else cfg

/-- Lines 39-41 of converters.py: remove `config` from the document when
it is now the empty dict. -/
def configDropEmpty (data : RawEntries) : RawEntries :=
  if dget data "config" = some (.dict .nil) then derase data "config" else data

/-- The config pruning at converters.py lines 33-41: `config =
data.get("config", {})` aliases the nested dict, so removing its empty
`future` entry rewrites the document's `config` value; a then-empty
`config` is removed from the document. A non-dict `config` value fails on
`.get` with an AttributeError, as in Python. -/
def configCleanup (data : RawEntries) : Except PyExc RawEntries :=
  match dget data "config" with
  | none => .ok (configDropEmpty data)
  | some (.dict cfg) =>
    .ok (configDropEmpty (dset data "config" (.dict (configPruneFuture cfg))))
  | some v =>
    .error (.attributeError s!"'{pyTypeName v}' object has no attribute 'get'")

/-- maybe_convert of model/v0_4/converters.py (lines 28-43). -/
def maybe_convert (convert_model_from_v0_3 : RawEntries → Except PyExc RawEntries)
    (data : RawEntries) : Except PyExc RawEntries := do
  let (major, minor, _patch) ← maybe_convert_parse data
  let data ← if major = 0 ∧ minor < 4 then convert_model_from_v0_3 data
    else Except.ok data
  configCleanup data

/-!
Embedding of the package-content naming of prepare_to_package
(src/bioimageio/spec/utils.py lines 318-340). The tree walk
_fill_resource_package_content produces the location-to-source map in
pre-order; the loop below then assigns each source a destination file
name: the extracted name when free or already mapping to the same source,
else the first free (or same-source) name among the "_2" ... "_9"
suffixed alternatives, else a RuntimeError.
-/

/-- A package source: an already-absolutized local path or a URL, carrying
what _extract_file_name reads. -/
inductive PackSrc where
  | localPath (dirs : List String) (name : String)
  | url (scheme host : String) (pathSegments : List String)
deriving DecidableEq, Repr

/-- _extract_file_name (utils.py lines 343-347): a path's final component,
or the last "/"-separated segment of a URL's path. -/
def _extract_file_name : PackSrc → String
  | .localPath _ n => n
  | .url _ _ segs => (segs.getLast?).getD ""

/-- The alternative name tried for a clash (utils.py lines 326-327):
`fn, *ext = file_name.split(".")` and `".".join([f"{fn}_{i}", *ext])`. -/
def alternative_file_name (file_name : String) (i : Nat) : String :=
  match pySplitChar '.' file_name with
  | [] => ""
  | fn :: ext => pyJoin "." (s!"{fn}_{i}" :: ext)

/-- The suffixes tried, `range(2, 10)`. -/
def suffixRange : List Nat := [2, 3, 4, 5, 6, 7, 8, 9]

/-- The acceptance condition of the suffix loop (utils.py line 328): the
alternative name is unused, or already maps to this same source. -/
def altCond (file_sources : List (String × PackSrc)) (src : PackSrc)
    (file_name : String) (i : Nat) : Prop :=
  alistGet file_sources (alternative_file_name file_name i) = none ∨
    alistGet file_sources (alternative_file_name file_name i) = some src

instance (file_sources : List (String × PackSrc)) (src : PackSrc)
    (file_name : String) (i : Nat) :
    Decidable (altCond file_sources src file_name i) := by
  unfold altCond
  infer_instance

/-- The suffix loop: the first acceptable alternative name in the range. -/
def findAlternativeFrom (file_sources : List (String × PackSrc)) (src : PackSrc)
    (file_name : String) : List Nat → Option String
  | [] => none
  | i :: rest =>
    if altCond file_sources src file_name i then
      some (alternative_file_name file_name i)
    else findAlternativeFrom file_sources src file_name rest

/-- The file name chosen for one source given the names already taken
(utils.py lines 323-332). -/
def assignName (file_sources : List (String × PackSrc)) (src : PackSrc) :
    Except PyExc String :=
  let file_name := _extract_file_name src
  if (alistGet file_sources file_name).isSome ∧
      alistGet file_sources file_name ≠ some src then
    match findAlternativeFrom file_sources src file_name suffixRange with
    | some alt => .ok alt
    | none => .error (.runtimeError s!"Too many file name clashes for {file_name}")
  else .ok file_name

/-- The naming loop of prepare_to_package (utils.py lines 322-335) over the
pre-ordered package content, threading the file_names and file_sources
dicts. -/
def prepare_to_package_names :
    List (List LocKey × PackSrc) → List (List LocKey × String) →
    List (String × PackSrc) →
    Except PyExc (List (List LocKey × String) × List (String × PackSrc))
  | [], file_names, file_sources => .ok (file_names, file_sources)
  | (loc, src) :: rest, file_names, file_sources => do
    let file_name ← assignName file_sources src
    prepare_to_package_names rest (alistSet file_names loc file_name)
      (alistSet file_sources file_name src)

/-!
Concrete fixtures used by counterexamples and witnesses: a registry with
the latest generic (0.3.0) and model (0.4.2) classes, a validator that
always succeeds (a document whose fields all satisfy their constraints)
and one that always fails with a missing-field error.
-/

/-- The latest generic resource-description class (format version 0.3.0). -/
def genericClass : RdClassM := ⟨"generic", "0.3.0", (0, 3, 0), 0⟩

/-- The latest model resource-description class (format version 0.4.2). -/
def modelClass : RdClassM := ⟨"model", "0.4.2", (0, 4, 2), 1⟩

/-- A pydantic model validation that succeeds on every input. -/
def alwaysValid : RdClassM → RawEntries → ValidationContext → ValidateResult :=
  fun c _ _ => .ok ⟨c.type, c.implemented_format_version, 0⟩

/-- A pydantic model validation that always reports one missing field. -/
def alwaysInvalid : RdClassM → RawEntries → ValidationContext → ValidateResult :=
  fun _ _ _ => .validationError [⟨[.str "name"], "field required", "missing"⟩]

/-- A demo registry with the generic and model classes. -/
def demoLib : SpecLib :=
  { rdClasses := [genericClass, modelClass]
    typeModules :=
      [("generic", ⟨genericClass, [("v0_3", genericClass)]⟩),
       ("model", ⟨modelClass, [("v0_4", modelClass)]⟩)]
    genericLatest := genericClass
    modelValidate := alwaysValid }

/-- The demo registry with the failing validator instead. -/
def demoLibFailing : SpecLib := { demoLib with modelValidate := alwaysInvalid }

/-- The validation context with all defaults (root ".", warning level 50). -/
def defaultContext : ValidationContext := {}

/-- A validated resource description value for the check-based validators. -/
def rdDemo : RDVal := ⟨"generic", "0.3.0", 7⟩

/-- A failing ALERT-severity warn-wrapped check (e.g. the tag-category
check of generic/v0_3.py). -/
def alertCheck : CheckModel :=
  ⟨[.str "tags"], "missing category tags", "value_error", some .alert, false⟩

/-- A failing WARNING-severity warn-wrapped check (e.g. a deprecated
license value). -/
def licenseCheck : CheckModel :=
  ⟨[.str "license"], "deprecated license", "value_error", some .warning, false⟩

/-- C8: entering `with cfg` makes cfg the ambient context the body (and
hence every node constructor that does not receive an explicit context)
observes, and the previous ambient context is restored on every exit path,
the body's result being untouched whether it returns or raises. -/
theorem c8_context_scoping {α : Type} (cfg state : ValidationContext)
    (body : ValidationContext → ValidationContext × Except PyExc α) :
    (withValidationContext cfg body state).1 = state ∧
    (withValidationContext cfg body state).2 = (body cfg).2 ∧
    nodeObservedContext none cfg = cfg := by
  unfold withValidationContext contextVarSet contextVarReset nodeObservedContext
  exact ⟨rfl, rfl, rfl⟩

/-- C2 (amended): the as_warning wrapper raises the severity-typed
PydanticCustomError exactly when the failing check's severity reaches the
context's warning level, silently swallows the failure otherwise (nothing
recorded), always returns the uninspected value when it does not raise,
and the type it raises with is one the loader sorts into warnings. -/
theorem c2_warn_wrapper_semantics {α : Type} (severity : Severity)
    (msg : Option String) (ctxLevel : Option Nat) (eArgs : String) (value : α) :
    (severity.toNat ≥ ctxLevel.getD ERROR_LEVEL →
      as_warning severity msg ctxLevel (.error eArgs) value =
        .error (severity.warningName, pyOr msg eArgs)) ∧
    (severity.toNat < ctxLevel.getD ERROR_LEVEL →
      as_warning severity msg ctxLevel (.error eArgs) value = .ok value) ∧
    as_warning severity msg ctxLevel (.ok ()) value = .ok value ∧
    isWarningType severity.warningName = true := by
  refine ⟨fun h => ?_, fun h => ?_, rfl, by cases severity <;> rfl⟩
  · simp [as_warning, h]
  · simp [as_warning, Nat.not_le_of_lt h]

/-- Witness for c2_warn_wrapper_semantics at severity WARNING, context
warning level 30, a failing check: the wrapper raises the
("warning", message) custom error. -/
theorem c2_warn_wrapper_witness :
    Severity.warning.toNat ≥ (some 30 : Option Nat).getD ERROR_LEVEL ∧
    as_warning Severity.warning none (some 30)
        (.error "deprecated license") (42 : Nat) =
      .error ("warning", "deprecated license") :=
  ⟨by decide,
   (c2_warn_wrapper_semantics Severity.warning none (some 30)
     "deprecated license" 42).1 (by decide)⟩

/-- C2 counterexample: a failing WARNING-severity check below the default
warning level (severity 30 < level 50) is silently swallowed — the wrapper
returns the value and no warning is recorded anywhere, against the claim
that the failure is recorded as a warning; and with the warning level
raised to the check's severity, the loader raises
AssertionError("got rd, but also an error") instead of yielding a summary
with status "failed". -/
theorem c2_low_severity_failure_not_recorded :
    as_warning Severity.warning none (some 50)
        (.error "deprecated license") (42 : Nat) = .ok 42 ∧
    load_description_with_known_rd_class (checksValidate [licenseCheck] rdDemo)
        "generic" "0.3.0" { warning_level := 30 } =
      .error (.assertionError "got rd, but also an error") := by
  exact ⟨rfl, rfl⟩

/-- C1 counterexample: a failing ALERT-severity warn-wrapped check. The
first loading attempt runs at warning level 50 (not the lowest severity
20): it reports neither an error nor a warning for the failing check, and
at every admissible warning level (20, 30, 35, 50) the failing check never
enters the error list — so no pass exists in which "every would-be warning
becomes an error". -/
theorem c1_first_pass_not_strict :
    (strictPassContext { warning_level := 20 }).warning_level = 50 ∧
    _load_descr_impl (checksValidate [alertCheck] rdDemo)
        (strictPassContext defaultContext) = (some rdDemo, [], none, []) ∧
    (_load_descr_impl (checksValidate [alertCheck] rdDemo)
        { warning_level := 20 }).2.1 = [] ∧
    (_load_descr_impl (checksValidate [alertCheck] rdDemo)
        { warning_level := 30 }).2.1 = [] ∧
    (_load_descr_impl (checksValidate [alertCheck] rdDemo)
        { warning_level := 35 }).2.1 = [] ∧
    (_load_descr_impl (checksValidate [alertCheck] rdDemo)
        { warning_level := 50 }).2.1 = [] := by
  exact ⟨rfl, rfl, rfl, rfl, rfl, rfl⟩

/-- C3: the input {"type": "generic", "format_version": "0.3.0"} whose
validation succeeds. load_description raises
AssertionError("got rd, but also an error") instead of returning the
resource description with a "passed" summary: utils.py line 200 asserts
`errors is None` on a value `_load_descr_impl` always returns as a list. -/
theorem c3_successful_validation_raises_assertion :
    load_description demoLib
        (.cons "type" (.str "generic")
          (.cons "format_version" (.str "0.3.0") .nil))
        defaultContext "discover" =
      .error (.assertionError "got rd, but also an error") := by
  rfl

/-- C7: the input {"type": "model", "format_version": "0.4.5"} declaring a
future patch of the known 0.4 line (newest known patch 0.4.2), with a
validator that accepts the rounded document. The resolver rounds the
version down, but load_description then raises
AssertionError("got rd, but also an error") (utils.py line 200) instead of
returning the accepted document with the prepended alert warning. -/
theorem c7_future_patch_rounding_raises_assertion :
    load_description demoLib
        (.cons "type" (.str "model")
          (.cons "format_version" (.str "0.4.5") .nil))
        defaultContext "discover" =
      .error (.assertionError "got rd, but also an error") := by
  rfl

/-- Companion fact for C7 (the rounding logic itself matches the claim up
to the assertion slip): with a validator that reports a missing field, the
same future-patch input yields a summary for format version 0.4.2 whose
warnings start with the synthetic alert
"Treated future patch version 0.4.5 as 0.4.2.". -/
theorem future_patch_rounding_failure_path :
    load_description demoLibFailing
        (.cons "type" (.str "model")
          (.cons "format_version" (.str "0.4.5") .nil))
        defaultContext "discover" =
      .ok (none,
        { bioimageio_spec_version := SPEC_VERSION
          name := "bioimageio.spec static model validation (format version: 0.4.2)."
          source_name := "rdf.yaml"
          status := "failed"
          errors := [⟨[.str "name"], "field required", "missing"⟩]
          traceback := none
          warnings := some
            [⟨[.str "format_version"],
              "Treated future patch version 0.4.5 as 0.4.2.", "alert"⟩] }) := by
  rfl

/-- C9 counterexample: an input with no "type" key. load_description
raises TypeError (check_type_and_format_version, utils.py line 83) instead
of yielding a ValidationSummary. -/
theorem c9_missing_type_raises_type_error :
    load_description demoLib
        (.cons "format_version" (.str "0.3.0") .nil)
        defaultContext "discover" =
      .error (.typeError
        "Invalid resource type 'None' of type <class 'NoneType'>") := by
  rfl

/-- C9 (amended): within the description-validation phase the contract
holds — when model validation raises an exception that is not a
pydantic.ValidationError, the loader captures it instead of propagating:
the result is a summary with status "failed", a single location-less error
record carrying the exception's name and message, and the traceback field
set. -/
theorem c9_traceback_capture
    (validateRd : ValidationContext → ValidateResult)
    (rdClassType rdClassFormatVersion : String) (context : ValidationContext)
    (name msg : String) (tb : List String)
    (h : validateRd (strictPassContext context) = .otherExc name msg tb) :
    load_description_with_known_rd_class validateRd rdClassType
        rdClassFormatVersion context =
      .ok (none,
        { bioimageio_spec_version := SPEC_VERSION
          name :=
            s!"bioimageio.spec static {rdClassType} validation (format version: {rdClassFormatVersion})."
          source_name := sourceNameOf context.root
          status := "failed"
          errors := [⟨[], msg, name⟩]
          traceback := some tb
          warnings := none }) := by
  unfold load_description_with_known_rd_class _load_descr_impl
  rw [h]
  rfl

/-- Witness for c9_traceback_capture: a validator whose model validation
raises KeyError('weights') with a one-line traceback. -/
theorem c9_traceback_capture_witness :
    (fun _ : ValidationContext =>
        ValidateResult.otherExc "KeyError" "'weights'" ["  File rdf.py, line 1"])
        (strictPassContext defaultContext) =
      .otherExc "KeyError" "'weights'" ["  File rdf.py, line 1"] ∧
    load_description_with_known_rd_class
        (fun _ => .otherExc "KeyError" "'weights'" ["  File rdf.py, line 1"])
        "model" "0.4.2" defaultContext =
      .ok (none,
        { bioimageio_spec_version := SPEC_VERSION
          name := "bioimageio.spec static model validation (format version: 0.4.2)."
          source_name := "rdf.yaml"
          status := "failed"
          errors := [⟨[], "'weights'", "KeyError"⟩]
          traceback := some ["  File rdf.py, line 1"]
          warnings := none }) :=
  ⟨rfl,
   c9_traceback_capture
     (fun _ => .otherExc "KeyError" "'weights'" ["  File rdf.py, line 1"])
     "model" "0.4.2" defaultContext "KeyError" "'weights'"
     ["  File rdf.py, line 1"] rfl⟩

/-!
The warning/error partition of the two loading attempts, for validators
built from plain and warn-wrapped checks.
-/

/-- The record a plain (non-warn-wrapped) check contributes when it fails. -/
def plainRecordOf (c : CheckModel) : Option ErrRecord :=
  if c.ok then none
  else
    match c.warnSeverity with
    | none => some ⟨c.loc, c.msg, c.errType⟩
    | some _ => none

/-- The error records of the failing plain checks, in declaration order. -/
def plainErrorRecords (checks : List CheckModel) : List ErrRecord :=
  checks.filterMap plainRecordOf

/-- The record a warn-wrapped check contributes at a warning level: its
severity-named record when it fails and its severity reaches the level. -/
def firedWarnRecordOf (level : Nat) (c : CheckModel) : Option ErrRecord :=
  if c.ok then none
  else
    match c.warnSeverity with
    | none => none
    | some severity =>
      if severity.toNat ≥ level then some ⟨c.loc, c.msg, severity.warningName⟩
      else none

/-- The warning records fired at a warning level, in declaration order. -/
def firedWarningRecords (level : Nat) (checks : List CheckModel) : List ErrRecord :=
  checks.filterMap (firedWarnRecordOf level)

theorem isWarningType_warningName (severity : Severity) :
    isWarningType severity.warningName = true := by
  cases severity <;> rfl

theorem recordOf_strict_eq_plain : recordOf 50 = plainRecordOf := by
  funext c
  unfold recordOf plainRecordOf
  by_cases hok : c.ok
  · simp [hok]
  · simp only [hok, if_false, Bool.false_eq_true, if_neg]
    cases hw : c.warnSeverity with
    | none => rfl
    | some severity => cases severity <;> rfl

theorem filterMap_recordOf_strict (checks : List CheckModel) :
    checks.filterMap (recordOf 50) = plainErrorRecords checks := by
  rw [plainErrorRecords, recordOf_strict_eq_plain]

theorem filterMap_recordOf_filter_not_warn (level : Nat) :
    ∀ (checks : List CheckModel),
      (∀ c ∈ checks, c.warnSeverity = none → isWarningType c.errType = false) →
      (checks.filterMap (recordOf level)).filter
          (fun e => ! isWarningType e.typ) =
        plainErrorRecords checks
  | [], _ => rfl
  | c :: rest, hPlain => by
    have ihr := filterMap_recordOf_filter_not_warn level rest
      (fun c2 hc2 => hPlain c2 (List.mem_cons_of_mem c hc2))
    simp only [plainErrorRecords, List.filterMap_cons] at *
    by_cases hok : c.ok
    · simp [recordOf, plainRecordOf, hok, ihr]
    · cases hw : c.warnSeverity with
      | none =>
        have hNotWarn := hPlain c (List.mem_cons_self c rest) hw
        simp [recordOf, plainRecordOf, hok, hw, List.filter_cons, hNotWarn, ihr]
      | some severity =>
        by_cases hf : severity.toNat ≥ level
        · simp [recordOf, plainRecordOf, hok, hw, as_warning, hf, pyOr,
            List.filter_cons, isWarningType_warningName, ihr]
        · simp [recordOf, plainRecordOf, hok, hw, as_warning, hf, ihr]

theorem filterMap_recordOf_filter_warn (level : Nat) :
    ∀ (checks : List CheckModel),
      (∀ c ∈ checks, c.warnSeverity = none → isWarningType c.errType = false) →
      (checks.filterMap (recordOf level)).filter
          (fun e => isWarningType e.typ) =
        firedWarningRecords level checks
  | [], _ => rfl
  | c :: rest, hPlain => by
    have ihr := filterMap_recordOf_filter_warn level rest
      (fun c2 hc2 => hPlain c2 (List.mem_cons_of_mem c hc2))
    simp only [firedWarningRecords, List.filterMap_cons] at *
    by_cases hok : c.ok
    · simp [recordOf, firedWarnRecordOf, hok, ihr]
    · cases hw : c.warnSeverity with
      | none =>
        have hNotWarn := hPlain c (List.mem_cons_self c rest) hw
        simp [recordOf, firedWarnRecordOf, hok, hw, List.filter_cons, hNotWarn, ihr]
      | some severity =>
        by_cases hf : severity.toNat ≥ level
        · simp [recordOf, firedWarnRecordOf, hok, hw, as_warning, hf, pyOr,
            List.filter_cons, isWarningType_warningName, ihr]
        · simp [recordOf, firedWarnRecordOf, hok, hw, as_warning, hf, ihr]

theorem firedWarningRecords_strict : ∀ (checks : List CheckModel),
    firedWarningRecords 50 checks = []
  | [] => rfl
  | c :: rest => by
    have ihr := firedWarningRecords_strict rest
    simp only [firedWarningRecords, List.filterMap_cons] at *
    by_cases hok : c.ok
    · simp [firedWarnRecordOf, hok, ihr]
    · cases hw : c.warnSeverity with
      | none => simp [firedWarnRecordOf, hok, hw, ihr]
      | some severity =>
        cases severity <;> simp [firedWarnRecordOf, hok, hw, Severity.toNat, ihr]

theorem load_impl_checks_errors (checks : List CheckModel) (rd : RDVal)
    (context : ValidationContext) :
    (_load_descr_impl (checksValidate checks rd) context).2.1 =
      (checks.filterMap (recordOf context.warning_level)).filter
        (fun e => ! isWarningType e.typ) := by
  unfold _load_descr_impl checksValidate
  by_cases h : (checks.filterMap (recordOf context.warning_level)).isEmpty
  · simp only [h, if_true]
    rw [List.isEmpty_iff] at h
    simp [h]
  · simp [h]

theorem load_impl_checks_warnings (checks : List CheckModel) (rd : RDVal)
    (context : ValidationContext) :
    (_load_descr_impl (checksValidate checks rd) context).2.2.2 =
      (checks.filterMap (recordOf context.warning_level)).filter
        (fun e => isWarningType e.typ) := by
  unfold _load_descr_impl checksValidate
  by_cases h : (checks.filterMap (recordOf context.warning_level)).isEmpty
  · simp only [h, if_true]
    rw [List.isEmpty_iff] at h
    simp [h]
  · simp [h]

/-- C1 (amended): the loader's first validation pass runs at warning level
50, suppressing every warn-wrapped check, and the second pass (utils.py
line 203) runs at the caller's warning level. For a validator built from
plain and warn-wrapped constraint checks (plain failure types not being
warning types), the first pass's error list equals the second pass's error
list — the failing plain checks in declaration order; the first pass
yields no warnings; and the second pass's warnings are exactly the failing
warn-wrapped checks whose severity reaches the caller's warning level,
each labelled with its own severity's warning name. -/
theorem c1_two_pass_error_warning_relation (checks : List CheckModel)
    (rd : RDVal) (context : ValidationContext)
    (hPlain : ∀ c ∈ checks, c.warnSeverity = none → isWarningType c.errType = false) :
    (_load_descr_impl (checksValidate checks rd) (strictPassContext context)).2.1 =
      plainErrorRecords checks ∧
    (_load_descr_impl (checksValidate checks rd) context).2.1 =
      plainErrorRecords checks ∧
    (_load_descr_impl (checksValidate checks rd) (strictPassContext context)).2.2.2 = [] ∧
    (_load_descr_impl (checksValidate checks rd) context).2.2.2 =
      firedWarningRecords context.warning_level checks := by
  have h50 : (strictPassContext context).warning_level = 50 := rfl
  refine ⟨?_, ?_, ?_, ?_⟩
  · rw [load_impl_checks_errors, h50,
      filterMap_recordOf_filter_not_warn 50 checks hPlain]
  · rw [load_impl_checks_errors,
      filterMap_recordOf_filter_not_warn context.warning_level checks hPlain]
  · rw [load_impl_checks_warnings, h50,
      filterMap_recordOf_filter_warn 50 checks hPlain,
      firedWarningRecords_strict]
  · rw [load_impl_checks_warnings,
      filterMap_recordOf_filter_warn context.warning_level checks hPlain]

/-- A failing plain (non-warn-wrapped) check for the witnesses. -/
def missingNameCheck : CheckModel :=
  ⟨[.str "name"], "field required", "missing", none, false⟩

/-- Witness for c1_two_pass_error_warning_relation: one failing plain check
and one failing ALERT check at caller warning level 35 — both passes report
exactly the plain failure as the error list, the first pass no warning, the
second pass exactly the alert warning. -/
theorem c1_two_pass_witness :
    (∀ c ∈ [missingNameCheck, alertCheck], c.warnSeverity = none →
      isWarningType c.errType = false) ∧
    ((_load_descr_impl (checksValidate [missingNameCheck, alertCheck] rdDemo)
        (strictPassContext { warning_level := 35 })).2.1 =
      plainErrorRecords [missingNameCheck, alertCheck] ∧
    (_load_descr_impl (checksValidate [missingNameCheck, alertCheck] rdDemo)
        { warning_level := 35 }).2.1 =
      plainErrorRecords [missingNameCheck, alertCheck] ∧
    (_load_descr_impl (checksValidate [missingNameCheck, alertCheck] rdDemo)
        (strictPassContext { warning_level := 35 })).2.2.2 = [] ∧
    (_load_descr_impl (checksValidate [missingNameCheck, alertCheck] rdDemo)
        { warning_level := 35 }).2.2.2 =
      firedWarningRecords ({ warning_level := 35 } : ValidationContext).warning_level
        [missingNameCheck, alertCheck]) :=
  ⟨by decide,
   c1_two_pass_error_warning_relation [missingNameCheck, alertCheck] rdDemo
     { warning_level := 35 } (by decide)⟩

/-!
String-level facts about the format-version normalization of get_rd_class.
-/

theorem exceptBind_ok {ε α β : Type} (a : α) (f : α → Except ε β) :
    (do { let x ← Except.ok a; f x } : Except ε β) = f a := rfl

theorem lastIdxOf_eq_none (c : Char) : ∀ (l : List Char), c ∉ l →
    lastIdxOf c l = none
  | [], _ => rfl
  | x :: rest, h => by
    have hx : ¬ x = c := fun hh => h (hh ▸ List.mem_cons_self x rest)
    simp [lastIdxOf, lastIdxOf_eq_none c rest (fun hm => h (List.mem_cons_of_mem x hm)), hx]

theorem lastIdxOf_append_last (c : Char) (C : List Char) (hC : c ∉ C) :
    ∀ (X : List Char), lastIdxOf c (X ++ c :: C) = some X.length
  | [] => by simp [lastIdxOf, lastIdxOf_eq_none c C hC]
  | x :: X => by
    simp [lastIdxOf, lastIdxOf_append_last c C hC X]

theorem countChar_append (c : Char) (a b : String) :
    countChar c (a ++ b) = countChar c a + countChar c b := by
  simp [countChar, String.data_append, List.count_append]

theorem not_mem_of_countChar_zero {c : Char} {s : String}
    (h : countChar c s = 0) : c ∉ s.data := by
  rw [countChar, List.count_eq_zero] at h
  exact h

theorem countChar_dot_dot : countChar '.' "." = 1 := rfl

theorem data_two_dots (a b c : String) :
    (a ++ "." ++ b ++ "." ++ c).data =
      (a.data ++ '.' :: b.data) ++ '.' :: c.data := by
  simp [String.data_append, List.append_assoc]

theorem normalize_two_dots (a b c : String) (ha : countChar '.' a = 0)
    (hb : countChar '.' b = 0) (hc : countChar '.' c = 0) :
    normalize_format_version (a ++ "." ++ b ++ "." ++ c) = a ++ "." ++ b := by
  have hcount : countChar '.' (a ++ "." ++ b ++ "." ++ c) = 2 := by
    simp [countChar_append, ha, hb, hc, countChar_dot_dot]
  have hrfind : pyRFind '.' (a ++ "." ++ b ++ "." ++ c) =
      ((a.data ++ '.' :: b.data).length : Int) := by
    unfold pyRFind
    rw [data_two_dots, lastIdxOf_append_last '.' c.data (not_mem_of_countChar_zero hc)]
  unfold normalize_format_version
  rw [hcount]
  simp only [OfNat.ofNat_ne_zero, and_false, if_false, if_pos rfl]
  rw [hrfind]
  unfold pySliceTo
  rw [if_pos (Int.ofNat_nonneg _)]
  rw [data_two_dots]
  rw [Int.toNat_ofNat, List.take_left]
  apply String.ext
  simp [String.data_append, List.append_assoc]

theorem normalize_one_dot (a b : String) (ha : countChar '.' a = 0)
    (hb : countChar '.' b = 0) :
    normalize_format_version (a ++ "." ++ b) = a ++ "." ++ b := by
  have hcount : countChar '.' (a ++ "." ++ b) = 1 := by
    simp [countChar_append, ha, hb, countChar_dot_dot]
  unfold normalize_format_version
  rw [hcount]
  simp

theorem normalize_no_dot (a : String) (ha : countChar '.' a = 0)
    (hlatest : a ≠ "latest") :
    normalize_format_version a = a ++ ".0" := by
  unfold normalize_format_version
  rw [ha]
  simp [hlatest]

/-- C4: patch-independence and rejection in the version resolvers.
(1) get_rd_class answers identically on "MAJOR.MINOR.PATCH" and on its
truncation "MAJOR.MINOR", for every registry, type and dot-free version
components — the schema class cannot depend on PATCH. (2) A version with
no dot is treated as "N.0". (3) get_matching_io_class rejects with a
ValueError any data version whose (MAJOR, MINOR) is strictly greater than
the newest the IO class implements. -/
theorem c4_version_resolution_patch_independent :
    (∀ (lib : SpecLib) (t a b c : String),
      countChar '.' a = 0 → countChar '.' b = 0 → countChar '.' c = 0 →
      get_rd_class lib t (a ++ "." ++ b ++ "." ++ c) =
        get_rd_class lib t (a ++ "." ++ b)) ∧
    (∀ (lib : SpecLib) (t a : String),
      countChar '.' a = 0 → a ≠ "latest" →
      get_rd_class lib t a = get_rd_class lib t (a ++ ".0")) ∧
    (∀ (cls : IOClassM) (data_version action_descr : String) (dv cur : Int × Int),
      get_version_tuple_wo_patch data_version = .ok dv →
      get_version_tuple_wo_patch cls.currentFormatVersion = .ok cur →
      pyTupleGt dv cur = true →
      get_matching_io_class cls data_version action_descr =
        .error (.valueError
          s!"You are attempting to {action_descr} an RDF in format version {joinVersionTuple dv}.x with the RDF spec {joinVersionTuple cur}")) := by
  refine ⟨?_, ?_, ?_⟩
  · intro lib t a b c ha hb hc
    unfold get_rd_class
    rw [normalize_two_dots a b c ha hb hc, normalize_one_dot a b ha hb]
  · intro lib t a ha hlatest
    have hdot0 : (".0" : String) = "." ++ "0" := by decide
    have key : a ++ ".0" = a ++ "." ++ "0" := by
      rw [String.append_assoc, ← hdot0]
    unfold get_rd_class
    rw [normalize_no_dot a ha hlatest, key,
      normalize_one_dot a "0" ha (by decide), ← key]
  · intro cls data_version action_descr dv cur hdv hcur hgt
    unfold get_matching_io_class
    rw [hdv, hcur]
    simp only [exceptBind_ok]
    simp [hgt]

/-- Witness for c4_version_resolution_patch_independent: the demo registry
resolves "0.4.7" and "0.4" to the same answer and "3" as "3.0"; the
0.4.2 IO class rejects data version "0.5.0". -/
theorem c4_version_resolution_witness :
    (countChar '.' "0" = 0 ∧ countChar '.' "4" = 0 ∧ countChar '.' "7" = 0 ∧
      get_rd_class demoLib "model" ("0" ++ "." ++ "4" ++ "." ++ "7") =
        get_rd_class demoLib "model" ("0" ++ "." ++ "4")) ∧
    (countChar '.' "3" = 0 ∧ ("3" : String) ≠ "latest" ∧
      get_rd_class demoLib "model" "3" = get_rd_class demoLib "model" ("3" ++ ".0")) ∧
    (get_version_tuple_wo_patch "0.5.0" = .ok (0, 5) ∧
      get_version_tuple_wo_patch (IOClassM.mk "0.4.2" none).currentFormatVersion =
        .ok (0, 4) ∧
      pyTupleGt (0, 5) (0, 4) = true ∧
      get_matching_io_class (IOClassM.mk "0.4.2" none) "0.5.0" "load" =
        .error (.valueError
          "You are attempting to load an RDF in format version 0.5.x with the RDF spec 0.4")) :=
  ⟨⟨by decide, by decide, by decide,
    c4_version_resolution_patch_independent.1 demoLib "model" "0" "4" "7"
      (by decide) (by decide) (by decide)⟩,
   ⟨by decide, by decide,
    c4_version_resolution_patch_independent.2.1 demoLib "model" "3"
      (by decide) (by decide)⟩,
   ⟨rfl, rfl, by decide,
    c4_version_resolution_patch_independent.2.2 (IOClassM.mk "0.4.2" none)
      "0.5.0" "load" (0, 5) (0, 4) rfl rfl (by decide)⟩⟩

/-!
Idempotence facts about the config pruning and maybe_convert.
-/

theorem configPruneFuture_no_empty_future (cfg : RawEntries) :
    dget (configPruneFuture cfg) "future" ≠ some (.dict .nil) := by
  unfold configPruneFuture
  by_cases h : dget cfg "future" = some (.dict .nil)
  · rw [if_pos h, dget_derase_self]
    intro hh
    cases hh
  · rw [if_neg h]
    exact h

theorem configPruneFuture_idem (cfg : RawEntries) :
    configPruneFuture (configPruneFuture cfg) = configPruneFuture cfg := by
  have h := configPruneFuture_no_empty_future cfg
  generalize hx : configPruneFuture cfg = x at h ⊢
  unfold configPruneFuture
  rw [if_neg h]

theorem configDropEmpty_dget_ne (data : RawEntries) (k : String)
    (hk : k ≠ "config") :
    dget (configDropEmpty data) k = dget data k := by
  unfold configDropEmpty
  by_cases h : dget data "config" = some (.dict .nil)
  · rw [if_pos h, dget_derase_ne data k "config" hk]
  · rw [if_neg h]

theorem configCleanup_dget_ne (data d2 : RawEntries) (k : String)
    (hk : k ≠ "config") (h : configCleanup data = .ok d2) :
    dget d2 k = dget data k := by
  unfold configCleanup at h
  cases hc : dget data "config" with
  | none =>
    rw [hc] at h
    cases h
    exact configDropEmpty_dget_ne data k hk
  | some v =>
    rw [hc] at h
    cases v with
    | str s => cases h
    | int n => cases h
    | bool b => cases h
    | null => cases h
    | list items => cases h
    | dict cfg =>
      cases h
      rw [configDropEmpty_dget_ne _ k hk,
        dget_dset_ne _ k "config" _ hk]

theorem configCleanup_idem (data d2 : RawEntries)
    (h : configCleanup data = .ok d2) : configCleanup d2 = .ok d2 := by
  unfold configCleanup at h
  cases hc : dget data "config" with
  | none =>
    rw [hc] at h
    have hdrop : configDropEmpty data = data := by
      unfold configDropEmpty
      rw [if_neg (by rw [hc]; intro hh; cases hh)]
    rw [hdrop] at h
    cases h
    unfold configCleanup
    rw [hc, hdrop]
  | some v =>
    rw [hc] at h
    cases v with
    | str s => cases h
    | int n => cases h
    | bool b => cases h
    | null => cases h
    | list items => cases h
    | dict cfg =>
      cases h
      have hget1 : dget (dset data "config" (.dict (configPruneFuture cfg)))
          "config" = some (.dict (configPruneFuture cfg)) :=
        dget_dset_self data "config" _
      by_cases hempty : configPruneFuture cfg = .nil
      · have hdrop : configDropEmpty (dset data "config" (.dict (configPruneFuture cfg))) =
            derase (dset data "config" (.dict (configPruneFuture cfg))) "config" := by
          unfold configDropEmpty
          rw [if_pos (by rw [hget1, hempty])]
        rw [hdrop]
        have hnone : dget (derase (dset data "config" (.dict (configPruneFuture cfg))) "config") "config" = none :=
          dget_derase_self _ "config"
        unfold configCleanup
        rw [hnone]
        unfold configDropEmpty
        rw [if_neg (by rw [hnone]; intro hh; cases hh)]
      · have hdrop : configDropEmpty (dset data "config" (.dict (configPruneFuture cfg))) =
            dset data "config" (.dict (configPruneFuture cfg)) := by
          unfold configDropEmpty
          rw [if_neg (by rw [hget1]; intro hh; exact hempty (by injection hh with hh2; injection hh2))]
        rw [hdrop]
        unfold configCleanup
        rw [hget1]
        show Except.ok (configDropEmpty
            (dset (dset data "config" (RawValue.dict (configPruneFuture cfg)))
              "config" (RawValue.dict (configPruneFuture (configPruneFuture cfg))))) = _
        rw [configPruneFuture_idem, dset_of_dget_self _ "config" _ hget1, hdrop]

/-- C6 (amended): for a raw document whose declared format version parses
and is at or above the 0.4 floor, maybe_convert performs exactly the
config pruning (no 0.3-to-0.4 conversion), applying the step twice equals
applying it once, and the declared format version is unchanged — but the
step is not the identity: an empty `future` entry inside `config`, or a
then-empty `config`, is removed even at the floor. -/
theorem c6_maybe_convert_idempotent_at_floor
    (cf : RawEntries → Except PyExc RawEntries) (data : RawEntries)
    (ma mi pa : Int) (hparse : maybe_convert_parse data = .ok (ma, mi, pa))
    (hfloor : ¬(ma = 0 ∧ mi < 4)) :
    maybe_convert cf data = configCleanup data ∧
    (maybe_convert cf data).bind (maybe_convert cf) = maybe_convert cf data ∧
    (∀ d2, maybe_convert cf data = .ok d2 →
      dget d2 "format_version" = dget data "format_version") := by
  have hskip : ∀ (d : RawEntries), maybe_convert_parse d = .ok (ma, mi, pa) →
      maybe_convert cf d = configCleanup d := by
    intro d hp
    unfold maybe_convert
    rw [hp]
    simp only [exceptBind_ok]
    rw [if_neg hfloor]
  have h1 := hskip data hparse
  refine ⟨h1, ?_, ?_⟩
  · rw [h1]
    cases hcc : configCleanup data with
    | error e => rfl
    | ok d2 =>
      show maybe_convert cf d2 = Except.ok d2
      have hparse2 : maybe_convert_parse d2 = .ok (ma, mi, pa) := by
        unfold maybe_convert_parse
        rw [configCleanup_dget_ne data d2 "format_version" (by decide) hcc]
        exact hparse
      rw [hskip d2 hparse2]
      exact configCleanup_idem data d2 hcc
  · intro d2 h
    rw [h1] at h
    exact configCleanup_dget_ne data d2 "format_version" (by decide) h

/-- A document at the 0.4.0 floor carrying an empty `future` entry. -/
def floorDoc : RawEntries :=
  .cons "format_version" (.str "0.4.0")
    (.cons "config" (.dict (.cons "future" (.dict .nil) .nil)) .nil)

/-- A converter that must not be reached for documents at the floor. -/
def unusedConverter : RawEntries → Except PyExc RawEntries :=
  fun _ => .error (.runtimeError "unused")

/-- C6 counterexample: the document {"format_version": "0.4.0",
"config": {"future": {}}} is already at the 0.4 floor, yet maybe_convert
is not a no-op on it — the empty future entry and the then-empty config
are removed, so the result differs from the input. -/
theorem c6_not_noop_at_floor :
    maybe_convert unusedConverter floorDoc =
      .ok (.cons "format_version" (.str "0.4.0") .nil) ∧
    RawEntries.cons "format_version" (.str "0.4.0") .nil ≠ floorDoc :=
  ⟨rfl, by decide⟩

/-- Witness for c6_maybe_convert_idempotent_at_floor at the floor document:
the parse yields (0, 4, 0), the floor guard holds, and applying the step
twice equals applying it once. -/
theorem c6_idempotent_witness :
    maybe_convert_parse floorDoc = .ok (0, 4, 0) ∧
    ¬((0 : Int) = 0 ∧ (4 : Int) < 4) ∧
    maybe_convert unusedConverter floorDoc = configCleanup floorDoc ∧
    (maybe_convert unusedConverter floorDoc).bind (maybe_convert unusedConverter) =
      maybe_convert unusedConverter floorDoc :=
  ⟨rfl, by decide,
   (c6_maybe_convert_idempotent_at_floor unusedConverter floorDoc 0 4 0 rfl
     (by decide)).1,
   (c6_maybe_convert_idempotent_at_floor unusedConverter floorDoc 0 4 0 rfl
     (by decide)).2.1⟩

/-!
The first-seen-wins naming invariant of the packaging loop. With every
source extracting to the same base file name, the file_sources dict after
any prefix of the loop maps the base name to the first distinct source and
the "_2" ... "_9" suffixed names to the following distinct sources in
first-appearance order.
-/

theorem alistSet_of_get_self {κ α : Type} [DecidableEq κ] :
    ∀ (l : List (κ × α)) (k : κ) (v : α),
      alistGet l k = some v → alistSet l k v = l
  | [], k, v, h => by simp [alistGet] at h
  | (k0, v0) :: rest, k, v, h => by
    by_cases h0 : k0 = k
    · subst h0
      simp [alistGet] at h
      simp [alistSet, h]
    · simp [alistGet, h0] at h
      simp [alistSet, h0, alistSet_of_get_self rest k v h]

theorem alistSet_append_of_get_none {κ α : Type} [DecidableEq κ] :
    ∀ (l : List (κ × α)) (k : κ) (v : α),
      alistGet l k = none → alistSet l k v = l ++ [(k, v)]
  | [], k, v, _ => rfl
  | (k0, v0) :: rest, k, v, h => by
    by_cases h0 : k0 = k
    · subst h0
      simp [alistGet] at h
    · simp [alistGet, h0] at h
      simp [alistSet, h0, alistSet_append_of_get_none rest k v h]

/-- The destination name of the j-th distinct source sharing one base
name: the base name itself for the first, the "_2", "_3", ... suffixed
alternatives for the following ones. -/
def nameForIndex (base : String) : Nat → String
  | 0 => base
  | i + 1 => alternative_file_name base (i + 2)

/-- The file_sources entries for the distinct sources seen so far, in
first-appearance order starting at the given index. -/
def expectedSources (base : String) (start : Nat) :
    List PackSrc → List (String × PackSrc)
  | [] => []
  | s :: rest => (nameForIndex base start, s) :: expectedSources base (start + 1) rest

/-- The distinct sources of the remaining content in first-appearance
order, continuing a list of already-seen sources. -/
def firstSeenFrom (seen : List PackSrc) :
    List (List LocKey × PackSrc) → List PackSrc
  | [] => seen
  | (_, src) :: rest =>
    if src ∈ seen then firstSeenFrom seen rest
    else firstSeenFrom (seen ++ [src]) rest

/-- The position of a source in the first-appearance order. -/
def srcIndexOf (src : PackSrc) : List PackSrc → Nat
  | [] => 0
  | s :: rest => if s = src then 0 else srcIndexOf src rest + 1

/-- The file_names dict the loop builds: every location receives the name
of its source's first-appearance index. -/
def expectedNames (base : String) (final : List PackSrc) :
    List (List LocKey × String) → List (List LocKey × PackSrc) →
    List (List LocKey × String)
  | file_names, [] => file_names
  | file_names, (loc, src) :: rest =>
    expectedNames base final
      (alistSet file_names loc (nameForIndex base (srcIndexOf src final))) rest

/-- A base file name whose "_2" ... "_9" alternatives are pairwise
distinct and differ from the base itself (true of any ordinary file
name; discharged by computation at concrete names). -/
def goodBase (base : String) : Prop :=
  (∀ i ∈ suffixRange, ∀ j ∈ suffixRange,
    alternative_file_name base i = alternative_file_name base j → i = j) ∧
  (∀ i ∈ suffixRange, alternative_file_name base i ≠ base)

instance (base : String) : Decidable (goodBase base) := by
  unfold goodBase
  infer_instance

theorem mem_suffixRange (i : Nat) : i ∈ suffixRange ↔ 2 ≤ i ∧ i ≤ 9 := by
  simp [suffixRange]
  omega

theorem suffixRange_eq_range : suffixRange = List.range' 2 8 := by decide

theorem alternative_eq_nameForIndex (base : String) (i : Nat) (hi : 2 ≤ i) :
    alternative_file_name base i = nameForIndex base (i - 1) := by
  obtain ⟨k, rfl⟩ : ∃ k, i = k + 2 := ⟨i - 2, by omega⟩
  show alternative_file_name base (k + 2) = nameForIndex base (k + 1)
  rfl

theorem nameForIndex_inj (base : String) (hbase : goodBase base) :
    ∀ {i1 i2 : Nat}, i1 ≤ 8 → i2 ≤ 8 →
      nameForIndex base i1 = nameForIndex base i2 → i1 = i2 := by
  intro i1 i2 h1 h2 heq
  match i1, i2 with
  | 0, 0 => rfl
  | 0, j + 1 =>
    exact absurd heq.symm
      (hbase.2 (j + 2) ((mem_suffixRange (j + 2)).2 (by omega)))
  | i + 1, 0 =>
    exact absurd heq
      (hbase.2 (i + 2) ((mem_suffixRange (i + 2)).2 (by omega)))
  | i + 1, j + 1 =>
    have := hbase.1 (i + 2) ((mem_suffixRange (i + 2)).2 (by omega))
      (j + 2) ((mem_suffixRange (j + 2)).2 (by omega)) heq
    omega

theorem alistGet_expectedSources_mem (base : String) (hbase : goodBase base) :
    ∀ (seen : List PackSrc) (start j : Nat), start + seen.length ≤ 9 →
      j < seen.length →
      alistGet (expectedSources base start seen) (nameForIndex base (start + j)) =
        seen.get? j
  | [], _, j, _, hj => by simp at hj
  | s :: rest, start, 0, hlen, hj => by
    simp [expectedSources, alistGet]
  | s :: rest, start, j + 1, hlen, hj => by
    simp only [expectedSources, alistGet]
    rw [if_neg]
    · have harith : start + (j + 1) = (start + 1) + j := by omega
      rw [harith,
        alistGet_expectedSources_mem base hbase rest (start + 1) j
          (by simp at hlen ⊢; omega) (by simp at hj; omega)]
      rfl
    · intro hkey
      have := @nameForIndex_inj base hbase start (start + (j + 1))
        (by simp at hlen; omega) (by simp at hlen hj; omega) hkey
      omega

theorem alistGet_expectedSources_none (base : String) :
    ∀ (seen : List PackSrc) (start : Nat) (name : String),
      (∀ j, j < seen.length → name ≠ nameForIndex base (start + j)) →
      alistGet (expectedSources base start seen) name = none
  | [], _, _, _ => rfl
  | s :: rest, start, name, h => by
    simp only [expectedSources, alistGet]
    rw [if_neg]
    · exact alistGet_expectedSources_none base rest (start + 1) name
        (fun j hj => by
          have := h (j + 1) (by simp; omega)
          rw [show start + (j + 1) = (start + 1) + j from by omega] at this
          exact this)
    · intro hkey
      exact h 0 (by simp) (by rw [Nat.add_zero]; exact hkey.symm)

theorem alistGet_expectedSources (base : String) (hbase : goodBase base)
    (seen : List PackSrc) (hlen : seen.length ≤ 9) (i : Nat) (hi : i ≤ 8) :
    alistGet (expectedSources base 0 seen) (nameForIndex base i) = seen.get? i := by
  by_cases hlt : i < seen.length
  · have := alistGet_expectedSources_mem base hbase seen 0 i (by omega) hlt
    simpa using this
  · rw [alistGet_expectedSources_none base seen 0 (nameForIndex base i)
      (fun j hj hkey => by
        have := @nameForIndex_inj base hbase i (0 + j) hi
          (by omega) hkey
        omega)]
    rw [eq_comm, List.get?_eq_none]
    omega

theorem srcIndexOf_get? (src : PackSrc) :
    ∀ (seen : List PackSrc), src ∈ seen →
      seen.get? (srcIndexOf src seen) = some src ∧ srcIndexOf src seen < seen.length
  | [], h => absurd h (List.not_mem_nil src)
  | s :: rest, h => by
    by_cases hs : s = src
    · subst hs
      simp [srcIndexOf]
    · have hmem : src ∈ rest := by
        cases h with
        | head => exact absurd rfl hs
        | tail _ hm => exact hm
      have ih := srcIndexOf_get? src rest hmem
      constructor
      · simp only [srcIndexOf, if_neg hs, List.get?_cons_succ]
        exact ih.1
      · have h2 := ih.2
        simp only [srcIndexOf, if_neg hs, List.length_cons]
        omega

theorem get?_eq_srcIndexOf (src : PackSrc) :
    ∀ (seen : List PackSrc), seen.Nodup → ∀ i, seen.get? i = some src →
      i = srcIndexOf src seen
  | [], _, i, h => by simp at h
  | s :: rest, hnodup, 0, h => by
    rw [List.get?_cons_zero] at h
    injection h with h
    simp [srcIndexOf, h]
  | s :: rest, hnodup, i + 1, h => by
    rw [List.get?_cons_succ] at h
    have hmem : src ∈ rest := List.get?_mem h
    have hs : ¬ s = src := by
      intro hh
      subst hh
      exact (List.nodup_cons.1 hnodup).1 hmem
    simp only [srcIndexOf, if_neg hs]
    exact congrArg (fun t => t + 1)
      (get?_eq_srcIndexOf src rest (List.nodup_cons.1 hnodup).2 i h)

theorem srcIndexOf_append_mem (src : PackSrc) :
    ∀ (seen extra : List PackSrc), src ∈ seen →
      srcIndexOf src (seen ++ extra) = srcIndexOf src seen
  | [], _, h => absurd h (List.not_mem_nil src)
  | s :: rest, extra, h => by
    by_cases hs : s = src
    · simp [srcIndexOf, hs]
    · have hmem : src ∈ rest := by
        cases h with
        | head => exact absurd rfl hs
        | tail _ hm => exact hm
      simp [srcIndexOf, hs, srcIndexOf_append_mem src rest extra hmem]

theorem srcIndexOf_append_singleton (src : PackSrc) :
    ∀ (seen : List PackSrc), src ∉ seen →
      srcIndexOf src (seen ++ [src]) = seen.length
  | [], _ => by simp [srcIndexOf]
  | s :: rest, h => by
    have hs : ¬ s = src := fun hh => h (hh ▸ List.mem_cons_self s rest)
    simp [srcIndexOf, hs,
      srcIndexOf_append_singleton src rest (fun hm => h (List.mem_cons_of_mem s hm))]

theorem firstSeenFrom_shape :
    ∀ (content : List (List LocKey × PackSrc)) (seen : List PackSrc),
      ∃ extra, firstSeenFrom seen content = seen ++ extra
  | [], seen => ⟨[], by simp [firstSeenFrom]⟩
  | (loc, src) :: rest, seen => by
    by_cases hmem : src ∈ seen
    · obtain ⟨extra, hx⟩ := firstSeenFrom_shape rest seen
      exact ⟨extra, by simp [firstSeenFrom, hmem, hx]⟩
    · obtain ⟨extra, hx⟩ := firstSeenFrom_shape rest (seen ++ [src])
      exact ⟨src :: extra, by simp [firstSeenFrom, hmem, hx]⟩

theorem expectedSources_append (base : String) :
    ∀ (seen : List PackSrc) (start : Nat) (src : PackSrc),
      expectedSources base start (seen ++ [src]) =
        expectedSources base start seen ++
          [(nameForIndex base (start + seen.length), src)]
  | [], start, src => by simp [expectedSources]
  | s :: rest, start, src => by
    show (nameForIndex base start, s) ::
        expectedSources base (start + 1) (rest ++ [src]) = _
    rw [expectedSources_append base rest (start + 1) src]
    simp only [List.length_cons, expectedSources, List.cons_append]
    rw [show start + (rest.length + 1) = start + 1 + rest.length from by omega]

theorem findAlternativeFrom_range_some (fs : List (String × PackSrc))
    (src : PackSrc) (n : String) :
    ∀ (len a t : Nat), a ≤ t → t < a + len →
      (∀ i, a ≤ i → i < t → ¬ altCond fs src n i) → altCond fs src n t →
      findAlternativeFrom fs src n (List.range' a len) =
        some (alternative_file_name n t)
  | 0, a, t, hat, hta, _, _ => by omega
  | len + 1, a, t, hat, hta, hskip, hhit => by
    rw [List.range'_succ]
    by_cases heq : a = t
    · subst heq
      simp [findAlternativeFrom, hhit]
    · have halt : a < t := by omega
      simp only [findAlternativeFrom, if_neg (hskip a (by omega) halt)]
      exact findAlternativeFrom_range_some fs src n len (a + 1) t (by omega)
        (by omega) (fun i hi1 hi2 => hskip i (by omega) hi2) hhit

theorem findAlternativeFrom_range_none (fs : List (String × PackSrc))
    (src : PackSrc) (n : String) :
    ∀ (len a : Nat), (∀ i, a ≤ i → i < a + len → ¬ altCond fs src n i) →
      findAlternativeFrom fs src n (List.range' a len) = none
  | 0, a, _ => rfl
  | len + 1, a, hskip => by
    rw [List.range'_succ]
    simp only [findAlternativeFrom, if_neg (hskip a (by omega) (by omega))]
    exact findAlternativeFrom_range_none fs src n len (a + 1)
      (fun i hi1 hi2 => hskip i (by omega) (by omega))

theorem assignName_mem (base : String) (hbase : goodBase base)
    (seen : List PackSrc) (hnodup : seen.Nodup) (hlen : seen.length ≤ 9)
    (src : PackSrc) (hsrc : _extract_file_name src = base) (hmem : src ∈ seen) :
    assignName (expectedSources base 0 seen) src =
      .ok (nameForIndex base (srcIndexOf src seen)) ∧
    alistSet (expectedSources base 0 seen)
        (nameForIndex base (srcIndexOf src seen)) src =
      expectedSources base 0 seen := by
  obtain ⟨hjget, hjlt⟩ := srcIndexOf_get? src seen hmem
  have hgetj : alistGet (expectedSources base 0 seen)
      (nameForIndex base (srcIndexOf src seen)) = some src := by
    rw [alistGet_expectedSources base hbase seen hlen (srcIndexOf src seen)
      (by omega), hjget]
  refine ⟨?_, alistSet_of_get_self _ _ _ hgetj⟩
  by_cases hj0 : srcIndexOf src seen = 0
  · have hget0 : alistGet (expectedSources base 0 seen) base = some src := by
      rw [hj0] at hgetj
      exact hgetj
    rw [hj0]
    simp only [assignName, hsrc, hget0]
    rw [if_neg (fun hcond => hcond.2 rfl)]
    rfl
  · have h0lt : 0 < seen.length := by omega
    obtain ⟨s0, hs0⟩ : ∃ s0, seen.get? 0 = some s0 :=
      ⟨seen.get ⟨0, h0lt⟩, List.get?_eq_get h0lt⟩
    have hs0ne : s0 ≠ src := by
      intro hh
      subst hh
      exact hj0 (get?_eq_srcIndexOf _ seen hnodup 0 hs0).symm
    have hget0 : alistGet (expectedSources base 0 seen) base = some s0 := by
      have h := alistGet_expectedSources base hbase seen hlen 0 (by omega)
      rw [hs0] at h
      exact h
    have hfind : findAlternativeFrom (expectedSources base 0 seen) src base
        suffixRange = some (alternative_file_name base (srcIndexOf src seen + 1)) := by
      rw [suffixRange_eq_range]
      apply findAlternativeFrom_range_some _ _ _ 8 2 (srcIndexOf src seen + 1)
        (by omega) (by omega)
      · intro i hi2 hij
        unfold altCond
        rw [alternative_eq_nameForIndex base i hi2,
          alistGet_expectedSources base hbase seen hlen (i - 1) (by omega)]
        obtain ⟨si, hsi⟩ : ∃ si, seen.get? (i - 1) = some si :=
          ⟨seen.get ⟨i - 1, by omega⟩, List.get?_eq_get (by omega)⟩
        rw [hsi]
        push_neg
        refine ⟨(by intro hh; cases hh), ?_⟩
        intro hh
        injection hh with hh
        subst hh
        have := get?_eq_srcIndexOf si seen hnodup (i - 1) hsi
        omega
      · unfold altCond
        rw [alternative_eq_nameForIndex base (srcIndexOf src seen + 1) (by omega)]
        rw [show srcIndexOf src seen + 1 - 1 = srcIndexOf src seen from rfl]
        rw [alistGet_expectedSources base hbase seen hlen (srcIndexOf src seen)
          (by omega), hjget]
        exact Or.inr rfl
    simp only [assignName, hsrc, hget0]
    rw [if_pos ⟨rfl, fun hh => hs0ne (Option.some.inj hh)⟩]
    rw [hfind, alternative_eq_nameForIndex base (srcIndexOf src seen + 1) (by omega)]
    simp

theorem assignName_new_ok (base : String) (hbase : goodBase base)
    (seen : List PackSrc) (hlen : seen.length ≤ 8)
    (src : PackSrc) (hsrc : _extract_file_name src = base) (hnew : src ∉ seen) :
    assignName (expectedSources base 0 seen) src =
      .ok (nameForIndex base seen.length) ∧
    alistSet (expectedSources base 0 seen)
        (nameForIndex base seen.length) src =
      expectedSources base 0 (seen ++ [src]) := by
  have hgetm : alistGet (expectedSources base 0 seen)
      (nameForIndex base seen.length) = none := by
    rw [alistGet_expectedSources base hbase seen (by omega) seen.length hlen,
      List.get?_eq_none]
  have hset : alistSet (expectedSources base 0 seen)
      (nameForIndex base seen.length) src =
      expectedSources base 0 (seen ++ [src]) := by
    rw [alistSet_append_of_get_none _ _ _ hgetm, expectedSources_append,
      Nat.zero_add]
  refine ⟨?_, hset⟩
  cases hseen : seen with
  | nil =>
    simp only [assignName, hsrc]
    rfl
  | cons s0 rest =>
    rw [← hseen]
    have h0lt : 0 < seen.length := by rw [hseen]; simp
    obtain ⟨t0, ht0⟩ : ∃ t0, seen.get? 0 = some t0 :=
      ⟨seen.get ⟨0, h0lt⟩, List.get?_eq_get h0lt⟩
    have ht0ne : t0 ≠ src := by
      intro hh
      subst hh
      exact hnew (List.get?_mem ht0)
    have hget0 : alistGet (expectedSources base 0 seen) base = some t0 := by
      have h := alistGet_expectedSources base hbase seen (by omega) 0 (by omega)
      rw [ht0] at h
      exact h
    have hfind : findAlternativeFrom (expectedSources base 0 seen) src base
        suffixRange = some (alternative_file_name base (seen.length + 1)) := by
      rw [suffixRange_eq_range]
      apply findAlternativeFrom_range_some _ _ _ 8 2 (seen.length + 1)
        (by omega) (by omega)
      · intro i hi2 hij
        unfold altCond
        rw [alternative_eq_nameForIndex base i hi2,
          alistGet_expectedSources base hbase seen (by omega) (i - 1) (by omega)]
        obtain ⟨si, hsi⟩ : ∃ si, seen.get? (i - 1) = some si :=
          ⟨seen.get ⟨i - 1, by omega⟩, List.get?_eq_get (by omega)⟩
        rw [hsi]
        push_neg
        refine ⟨(by intro hh; cases hh), ?_⟩
        intro hh
        injection hh with hh
        subst hh
        exact hnew (List.get?_mem hsi)
      · unfold altCond
        rw [alternative_eq_nameForIndex base (seen.length + 1) (by omega)]
        rw [show seen.length + 1 - 1 = seen.length from rfl]
        rw [alistGet_expectedSources base hbase seen (by omega) seen.length hlen]
        exact Or.inl (List.get?_eq_none.2 (le_refl _))
    simp only [assignName, hsrc, hget0]
    rw [if_pos ⟨rfl, fun hh => ht0ne (Option.some.inj hh)⟩]
    rw [hfind, alternative_eq_nameForIndex base (seen.length + 1) (by omega)]
    simp

theorem assignName_overflow (base : String) (hbase : goodBase base)
    (seen : List PackSrc) (hlen : seen.length = 9)
    (src : PackSrc) (hsrc : _extract_file_name src = base) (hnew : src ∉ seen) :
    assignName (expectedSources base 0 seen) src =
      .error (.runtimeError s!"Too many file name clashes for {base}") := by
  have h0lt : 0 < seen.length := by omega
  obtain ⟨t0, ht0⟩ : ∃ t0, seen.get? 0 = some t0 :=
    ⟨seen.get ⟨0, h0lt⟩, List.get?_eq_get h0lt⟩
  have ht0ne : t0 ≠ src := by
    intro hh
    subst hh
    exact hnew (List.get?_mem ht0)
  have hget0 : alistGet (expectedSources base 0 seen) base = some t0 := by
    have h := alistGet_expectedSources base hbase seen (by omega) 0 (by omega)
    rw [ht0] at h
    exact h
  have hfind : findAlternativeFrom (expectedSources base 0 seen) src base
      suffixRange = none := by
    rw [suffixRange_eq_range]
    apply findAlternativeFrom_range_none
    intro i hi2 hij
    unfold altCond
    rw [alternative_eq_nameForIndex base i hi2,
      alistGet_expectedSources base hbase seen (by omega) (i - 1) (by omega)]
    obtain ⟨si, hsi⟩ : ∃ si, seen.get? (i - 1) = some si :=
      ⟨seen.get ⟨i - 1, by omega⟩, List.get?_eq_get (by omega)⟩
    rw [hsi]
    push_neg
    refine ⟨(by intro hh; cases hh), ?_⟩
    intro hh
    injection hh with hh
    subst hh
    exact hnew (List.get?_mem hsi)
  simp only [assignName, hsrc, hget0]
  rw [if_pos ⟨rfl, fun hh => ht0ne (Option.some.inj hh)⟩]
  rw [hfind]

theorem prepare_invariant (base : String) (hbase : goodBase base) :
    ∀ (content : List (List LocKey × PackSrc)) (seen : List PackSrc)
      (file_names : List (List LocKey × String)),
      (∀ e ∈ content, _extract_file_name e.2 = base) →
      seen.Nodup → seen.length ≤ 9 →
      ((firstSeenFrom seen content).length ≤ 9 →
        prepare_to_package_names content file_names (expectedSources base 0 seen) =
          .ok (expectedNames base (firstSeenFrom seen content) file_names content,
            expectedSources base 0 (firstSeenFrom seen content))) ∧
      (10 ≤ (firstSeenFrom seen content).length →
        prepare_to_package_names content file_names (expectedSources base 0 seen) =
          .error (.runtimeError s!"Too many file name clashes for {base}"))
  | [], seen, file_names, _, _, hlen => by
    constructor
    · intro _
      rfl
    · intro h10
      simp [firstSeenFrom] at h10
      omega
  | (loc, src) :: rest, seen, file_names, hall, hnodup, hlen => by
    have hsrc : _extract_file_name src = base :=
      hall (loc, src) (List.mem_cons_self _ _)
    have hallr : ∀ e ∈ rest, _extract_file_name e.2 = base :=
      fun e he => hall e (List.mem_cons_of_mem _ he)
    by_cases hmem : src ∈ seen
    · obtain ⟨hassign, hset⟩ := assignName_mem base hbase seen hnodup hlen src hsrc hmem
      have ih := prepare_invariant base hbase rest seen
        (alistSet file_names loc (nameForIndex base (srcIndexOf src seen)))
        hallr hnodup hlen
      have hfs : firstSeenFrom seen ((loc, src) :: rest) = firstSeenFrom seen rest := by
        simp [firstSeenFrom, hmem]
      obtain ⟨extra, hshape⟩ := firstSeenFrom_shape rest seen
      have hidx : srcIndexOf src (firstSeenFrom seen rest) = srcIndexOf src seen := by
        rw [hshape]
        exact srcIndexOf_append_mem src seen extra hmem
      have hstep : prepare_to_package_names ((loc, src) :: rest) file_names
          (expectedSources base 0 seen) =
          prepare_to_package_names rest
            (alistSet file_names loc (nameForIndex base (srcIndexOf src seen)))
            (expectedSources base 0 seen) := by
        show (do
          let file_name ← assignName (expectedSources base 0 seen) src
          prepare_to_package_names rest (alistSet file_names loc file_name)
            (alistSet (expectedSources base 0 seen) file_name src)) = _
        rw [hassign]
        simp only [exceptBind_ok]
        rw [hset]
      have hnames : expectedNames base (firstSeenFrom seen rest) file_names
          ((loc, src) :: rest) =
          expectedNames base (firstSeenFrom seen rest)
            (alistSet file_names loc (nameForIndex base (srcIndexOf src seen))) rest := by
        show expectedNames base _
          (alistSet file_names loc
            (nameForIndex base (srcIndexOf src (firstSeenFrom seen rest)))) rest = _
        rw [hidx]
      constructor
      · intro hle
        rw [hfs] at hle ⊢
        rw [hstep, hnames]
        exact ih.1 hle
      · intro h10
        rw [hfs] at h10
        rw [hstep]
        exact ih.2 h10
    · by_cases hlen8 : seen.length ≤ 8
      · obtain ⟨hassign, hset⟩ := assignName_new_ok base hbase seen hlen8 src hsrc hmem
        have hnodup2 : (seen ++ [src]).Nodup := by
          rw [List.nodup_append]
          exact ⟨hnodup, List.nodup_singleton src,
            fun a ha hb => by simp at hb; subst hb; exact hmem ha⟩
        have ih := prepare_invariant base hbase rest (seen ++ [src])
          (alistSet file_names loc (nameForIndex base seen.length))
          hallr hnodup2 (by simp; omega)
        have hfs : firstSeenFrom seen ((loc, src) :: rest) =
            firstSeenFrom (seen ++ [src]) rest := by
          simp [firstSeenFrom, hmem]
        obtain ⟨extra, hshape⟩ := firstSeenFrom_shape rest (seen ++ [src])
        have hidx : srcIndexOf src (firstSeenFrom (seen ++ [src]) rest) = seen.length := by
          rw [hshape, srcIndexOf_append_mem src (seen ++ [src]) extra (by simp)]
          exact srcIndexOf_append_singleton src seen hmem
        have hstep : prepare_to_package_names ((loc, src) :: rest) file_names
            (expectedSources base 0 seen) =
            prepare_to_package_names rest
              (alistSet file_names loc (nameForIndex base seen.length))
              (expectedSources base 0 (seen ++ [src])) := by
          show (do
            let file_name ← assignName (expectedSources base 0 seen) src
            prepare_to_package_names rest (alistSet file_names loc file_name)
              (alistSet (expectedSources base 0 seen) file_name src)) = _
          rw [hassign]
          simp only [exceptBind_ok]
          rw [hset]
        have hnames : expectedNames base (firstSeenFrom (seen ++ [src]) rest) file_names
            ((loc, src) :: rest) =
            expectedNames base (firstSeenFrom (seen ++ [src]) rest)
              (alistSet file_names loc (nameForIndex base seen.length)) rest := by
          show expectedNames base _
            (alistSet file_names loc
              (nameForIndex base (srcIndexOf src (firstSeenFrom (seen ++ [src]) rest)))) rest = _
          rw [hidx]
        constructor
        · intro hle
          rw [hfs] at hle ⊢
          rw [hstep, hnames]
          exact ih.1 hle
        · intro h10
          rw [hfs] at h10
          rw [hstep]
          exact ih.2 h10
      · have hlen9 : seen.length = 9 := by omega
        have hassign := assignName_overflow base hbase seen hlen9 src hsrc hmem
        have hstep : prepare_to_package_names ((loc, src) :: rest) file_names
            (expectedSources base 0 seen) =
            .error (.runtimeError s!"Too many file name clashes for {base}") := by
          show (do
            let file_name ← assignName (expectedSources base 0 seen) src
            prepare_to_package_names rest (alistSet file_names loc file_name)
              (alistSet (expectedSources base 0 seen) file_name src)) = _
          rw [hassign]
          rfl
        have hfs : firstSeenFrom seen ((loc, src) :: rest) =
            firstSeenFrom (seen ++ [src]) rest := by
          simp [firstSeenFrom, hmem]
        obtain ⟨extra, hshape⟩ := firstSeenFrom_shape rest (seen ++ [src])
        have hbig : 10 ≤ (firstSeenFrom seen ((loc, src) :: rest)).length := by
          rw [hfs, hshape]
          simp
          omega
        constructor
        · intro hle
          exact absurd hle (by omega)
        · intro _
          exact hstep

/-- C5: first-seen-wins collision resolution of the Package Collector
naming loop. For package content in pre-order whose sources all extract to
one base file name (with computationally well-behaved suffix alternatives)
and at most nine distinct sources, the loop succeeds; the resulting
file_sources map assigns the first-seen distinct source the plain base
name and the i-th following distinct source the "_2", "_3", ...
numerically suffixed name, in first-appearance order (expectedSources /
nameForIndex), and every location — including repeats of an
already-collected source, which are reused rather than duplicated — maps
to the name of its source's first-appearance index (expectedNames). -/
theorem c5_package_name_collision_resolution (base : String)
    (content : List (List LocKey × PackSrc)) (hbase : goodBase base)
    (hall : ∀ e ∈ content, _extract_file_name e.2 = base)
    (hcount : (firstSeenFrom [] content).length ≤ 9) :
    prepare_to_package_names content [] [] =
      .ok (expectedNames base (firstSeenFrom [] content) [] content,
        expectedSources base 0 (firstSeenFrom [] content)) :=
  (prepare_invariant base hbase content [] [] hall List.nodup_nil
    (by simp)).1 hcount

/-- Two local sources and a URL source all named weights.onnx, with one
repeat of the first source. -/
def contentW : List (List LocKey × PackSrc) :=
  [([.str "weights", .str "a"], .localPath ["folder_a"] "weights.onnx"),
   ([.str "weights", .str "b"], .localPath ["folder_b"] "weights.onnx"),
   ([.str "attachments", .idx 0], .localPath ["folder_a"] "weights.onnx"),
   ([.str "attachments", .idx 1], .url "https" "example.org" ["m", "weights.onnx"])]

/-- Witness for c5_package_name_collision_resolution: the two distinct
sources get "weights.onnx" and "weights_2.onnx", the repeat of the first
source reuses "weights.onnx", and the third distinct source gets
"weights_3.onnx". -/
theorem c5_package_name_witness :
    goodBase "weights.onnx" ∧
    (∀ e ∈ contentW, _extract_file_name e.2 = "weights.onnx") ∧
    (firstSeenFrom [] contentW).length ≤ 9 ∧
    prepare_to_package_names contentW [] [] =
      .ok (expectedNames "weights.onnx" (firstSeenFrom [] contentW) [] contentW,
        expectedSources "weights.onnx" 0 (firstSeenFrom [] contentW)) ∧
    expectedNames "weights.onnx" (firstSeenFrom [] contentW) [] contentW =
      [([.str "weights", .str "a"], "weights.onnx"),
       ([.str "weights", .str "b"], "weights_2.onnx"),
       ([.str "attachments", .idx 0], "weights.onnx"),
       ([.str "attachments", .idx 1], "weights_3.onnx")] :=
  ⟨by decide, by decide, by decide,
   c5_package_name_collision_resolution "weights.onnx" contentW (by decide)
     (by decide) (by decide),
   by decide⟩

/-- C10: with strictly more than nine distinct sources reducing to the
same extracted destination name, the naming loop raises
RuntimeError("Too many file name clashes for ..."): the collision scheme
tries only the "_2" through "_9" suffixes before giving up. -/
theorem c10_too_many_clashes (base : String)
    (content : List (List LocKey × PackSrc)) (hbase : goodBase base)
    (hall : ∀ e ∈ content, _extract_file_name e.2 = base)
    (hcount : 10 ≤ (firstSeenFrom [] content).length) :
    prepare_to_package_names content [] [] =
      .error (.runtimeError s!"Too many file name clashes for {base}") :=
  (prepare_invariant base hbase content [] [] hall List.nodup_nil
    (by simp)).2 hcount

/-- Ten distinct sources all named w.onnx. -/
def contentW10 : List (List LocKey × PackSrc) :=
  [([.idx 0], .localPath ["d0"] "w.onnx"),
   ([.idx 1], .localPath ["d1"] "w.onnx"),
   ([.idx 2], .localPath ["d2"] "w.onnx"),
   ([.idx 3], .localPath ["d3"] "w.onnx"),
   ([.idx 4], .localPath ["d4"] "w.onnx"),
   ([.idx 5], .localPath ["d5"] "w.onnx"),
   ([.idx 6], .localPath ["d6"] "w.onnx"),
   ([.idx 7], .localPath ["d7"] "w.onnx"),
   ([.idx 8], .localPath ["d8"] "w.onnx"),
   ([.idx 9], .localPath ["d9"] "w.onnx")]

/-- Witness for c10_too_many_clashes at ten distinct w.onnx sources. -/
theorem c10_too_many_clashes_witness :
    goodBase "w.onnx" ∧
    (∀ e ∈ contentW10, _extract_file_name e.2 = "w.onnx") ∧
    10 ≤ (firstSeenFrom [] contentW10).length ∧
    prepare_to_package_names contentW10 [] [] =
      .error (.runtimeError "Too many file name clashes for w.onnx") :=
  ⟨by decide, by decide, by decide,
   c10_too_many_clashes "w.onnx" contentW10 (by decide) (by decide) (by decide)⟩
